import Mathlib

/-!
# Metering relay and chat-record audit (one-api)

A shallow embedding of

* `model/chat_record.go` (the audit rows and the store queries),
* `model/chat_record_service.go` (the audit recorder),
* `controller/chat_record.go` (the read/delete handlers),
* `relay/controller/text.go` (the relay orchestrator `RelayTextHelper`),

followed by theorems about them.

Conventions.  Go `int`/`int64` values are `Int` (no arithmetic in the embedded code can
overflow for realistic values; nothing below depends on wrap-around).  `float64` pricing
ratios are only multiplied once and handed on, they are carried as rationals.  Effects
(goroutines that are started, ledger calls) are recorded in order as a list of events.
A Go panic is an explicit outcome.
-/

namespace OneApi

/-! ## net/http status codes -/

def StatusOK : Int := 200
def StatusBadRequest : Int := 400
def StatusForbidden : Int := 403
def StatusNotFound : Int := 404
def StatusInternalServerError : Int := 500

/-! ## model/chat_record.go -/

/-- ChatRecord, one row of the chat record table. -/
structure ChatRecord where
  Id : Int
  UserId : Int
  TokenId : Int
  ConversationId : String
  Role : String
  Content : String
  Model : String
  ChannelId : Int
  ChannelName : String
  ApiType : Int
  PromptTokens : Int
  CompletionTokens : Int
  TotalTokens : Int
  Cost : Int
  RequestId : String
  ResponseTime : Int
  Status : Int
  ErrorMessage : String
  CreatedTime : Int
  UpdatedTime : Int
deriving DecidableEq, Repr

/-- The Go zero value of a ChatRecord (what a composite literal leaves unset). -/
def ChatRecord.zero : ChatRecord :=
  { Id := 0, UserId := 0, TokenId := 0, ConversationId := "", Role := "", Content := "",
    Model := "", ChannelId := 0, ChannelName := "", ApiType := 0, PromptTokens := 0,
    CompletionTokens := 0, TotalTokens := 0, Cost := 0, RequestId := "", ResponseTime := 0,
    Status := 0, ErrorMessage := "", CreatedTime := 0, UpdatedTime := 0 }

def ChatRecordStatusSuccess : Int := 1
def ChatRecordStatusFailed : Int := 2

def ChatRoleUser : String := "user"
def ChatRoleAssistant : String := "assistant"
def ChatRoleSystem : String := "system"
def ChatRoleDeveloper : String := "developer"

/-- The store behind the package variable DB: the rows of the chat record table in storage
order, and the error (if any) that every statement sent to it reports (a lost connection, a
missing table).  `fault = none` is a store that executes its statements. -/
structure DB where
  rows : List ChatRecord
  fault : Option String
deriving DecidableEq, Repr

/-- The key an auto-increment primary key column hands out next. -/
def DB.nextId (db : DB) : Int :=
  (db.rows.map (fun r => r.Id)).foldl max 0 + 1

/-- Insert: stamps CreatedTime and UpdatedTime with the clock and creates the row.  A record
whose Id is zero receives the next auto-increment key; the primary key is unique, a row
whose key is taken is refused. -/
def ChatRecord.Insert (cr : ChatRecord) (db : DB) (now : Int) : DB × Option String :=
  let cr := { cr with CreatedTime := now }
  let cr := { cr with UpdatedTime := cr.CreatedTime }
  match db.fault with
  | some e => (db, some e)
  | none =>
    let cr := if cr.Id = 0 then { cr with Id := db.nextId } else cr
    if db.rows.any (fun r => r.Id = cr.Id) then (db, some "duplicate primary key")
    else ({ db with rows := db.rows ++ [cr] }, none)

/-- The clause ORDER BY created_time desc.  Rows with equal created_time, whose relative order
SQL leaves open, keep their storage order. -/
def orderByCreatedTimeDesc (rows : List ChatRecord) : List ChatRecord :=
  rows.insertionSort (fun a b => b.CreatedTime ≤ a.CreatedTime)

/-- The clause ORDER BY created_time asc, with the same convention for equal keys. -/
def orderByCreatedTimeAsc (rows : List ChatRecord) : List ChatRecord :=
  rows.insertionSort (fun a b => a.CreatedTime ≤ b.CreatedTime)

/-- The clauses Limit(num).Offset(startIdx) of the query builder: OFFSET is emitted for a
positive offset, LIMIT for a limit that is not negative. -/
def limitOffset (num startIdx : Int) (rows : List ChatRecord) : List ChatRecord :=
  let rows := if startIdx > 0 then rows.drop startIdx.toNat else rows
  if num ≥ 0 then rows.take num.toNat else rows

/-- GetChatRecordsByUserId. -/
def GetChatRecordsByUserId (db : DB) (userId startIdx num : Int) (conversationId : String) :
    List ChatRecord × Option String :=
  let query := db.rows.filter (fun r => r.UserId = userId)
  let query :=
    if conversationId ≠ "" then query.filter (fun r => r.ConversationId = conversationId)
    else query
  match db.fault with
  | some e => ([], some e)
  | none => (limitOffset num startIdx (orderByCreatedTimeDesc query), none)

/-- GetChatRecordsByConversationId. -/
def GetChatRecordsByConversationId (db : DB) (conversationId : String) :
    List ChatRecord × Option String :=
  match db.fault with
  | some e => ([], some e)
  | none =>
    (orderByCreatedTimeAsc (db.rows.filter (fun r => r.ConversationId = conversationId)), none)

/-- GetChatRecordById (model): First reports an error when no row matches and leaves the
record at its zero value. -/
def GetChatRecordById (db : DB) (id : Int) : ChatRecord × Option String :=
  match db.fault with
  | some e => (ChatRecord.zero, some e)
  | none =>
    match (db.rows.filter (fun r => r.Id = id)).insertionSort (fun a b => a.Id ≤ b.Id) with
    | [] => (ChatRecord.zero, some "record not found")
    | record :: _ => (record, none)

/-- DeleteChatRecordById: deletes the rows matching both the id and the user id; a
statement that matches no row is not an error. -/
def DeleteChatRecordById (db : DB) (id userId : Int) : DB × Option String :=
  match db.fault with
  | some e => (db, some e)
  | none =>
    let kept := db.rows.filter (fun r => ¬ (r.Id = id ∧ r.UserId = userId))
    ({ db with rows := kept }, none)

/-- DeleteChatRecordsByConversationId. -/
def DeleteChatRecordsByConversationId (db : DB) (conversationId : String) (userId : Int) :
    DB × Option String :=
  match db.fault with
  | some e => (db, some e)
  | none =>
    let kept := db.rows.filter
      (fun r => ¬ (r.ConversationId = conversationId ∧ r.UserId = userId))
    ({ db with rows := kept }, none)

/-- SearchChatRecords.  `like value pattern` is the LIKE operator of the database engine. -/
def SearchChatRecords (like : String → String → Bool) (db : DB) (userId : Int)
    (keyword : String) (startIdx num : Int) : List ChatRecord × Option String :=
  let query := db.rows.filter (fun r => r.UserId = userId)
  let query :=
    if keyword ≠ "" then
      query.filter (fun r =>
        like r.Content ("%" ++ keyword ++ "%") || like r.Model ("%" ++ keyword ++ "%") ||
        like r.ChannelName ("%" ++ keyword ++ "%"))
    else query
  match db.fault with
  | some e => ([], some e)
  | none => (limitOffset num startIdx (orderByCreatedTimeDesc query), none)

/-! ## model/chat_record_service.go -/

/-- ChatRecordService, the audit recorder bound to one exchange. -/
structure ChatRecordService where
  conversationId : String
  userId : Int
  tokenId : Int
  channelId : Int
  channelName : String
  apiType : Int
  model : String
  requestId : String
  startTime : Int
deriving DecidableEq, Repr

/-- NewChatRecordService.  generateConversationId hashes the user id, the clock and a random
number; it is taken as the function `generateConversationId`, and `now` is the clock. -/
def NewChatRecordService (generateConversationId : Int → String) (now : Int)
    (userId tokenId channelId : Int) (channelName : String) (apiType : Int)
    (model requestId : String) : ChatRecordService :=
  let conversationId := generateConversationId userId
  { conversationId := conversationId, userId := userId, tokenId := tokenId,
    channelId := channelId, channelName := channelName, apiType := apiType, model := model,
    requestId := requestId, startTime := now }

/-- Go unicode.IsSpace. -/
def isSpace (c : Char) : Bool :=
  let n := c.toNat
  n = 0x09 || n = 0x0A || n = 0x0B || n = 0x0C || n = 0x0D || n = 0x20 || n = 0x85 ||
  n = 0xA0 || n = 0x1680 || (0x2000 ≤ n && n ≤ 0x200A) || n = 0x2028 || n = 0x2029 ||
  n = 0x202F || n = 0x205F || n = 0x3000

/-- Go strings.TrimSpace: all leading and trailing white space removed. -/
def TrimSpace (s : String) : String :=
  String.mk ((s.data.dropWhile isSpace).reverse.dropWhile isSpace).reverse

/-- SaveUserMessage: the record it builds. -/
def ChatRecordService.userRecord (crs : ChatRecordService) (content role : String) :
    ChatRecord :=
  { ChatRecord.zero with
    UserId := crs.userId, TokenId := crs.tokenId, ConversationId := crs.conversationId,
    Role := role, Content := TrimSpace content, Model := crs.model,
    ChannelId := crs.channelId, ChannelName := crs.channelName, ApiType := crs.apiType,
    RequestId := crs.requestId, Status := ChatRecordStatusSuccess }

/-- SaveUserMessage. -/
def ChatRecordService.SaveUserMessage (crs : ChatRecordService) (db : DB) (now : Int)
    (content role : String) : DB × Option String :=
  if content = "" then (db, none)
  else (crs.userRecord content role).Insert db now

/-- SaveAssistantMessage: the record it builds.  `now` is the clock read for ResponseTime;
Insert reads the clock again, and both reads are taken to give the same second. -/
def ChatRecordService.assistantRecord (crs : ChatRecordService) (now : Int) (content : String)
    (promptTokens completionTokens totalTokens status : Int) (errorMsg : String) :
    ChatRecord :=
  { ChatRecord.zero with
    UserId := crs.userId, TokenId := crs.tokenId, ConversationId := crs.conversationId,
    Role := ChatRoleAssistant, Content := content, Model := crs.model,
    ChannelId := crs.channelId, ChannelName := crs.channelName, ApiType := crs.apiType,
    PromptTokens := promptTokens, CompletionTokens := completionTokens,
    TotalTokens := totalTokens, RequestId := crs.requestId,
    ResponseTime := (now - crs.startTime) * 1000,
    Status := status, ErrorMessage := errorMsg,
    Cost := totalTokens }

/-- SaveAssistantMessage. -/
def ChatRecordService.SaveAssistantMessage (crs : ChatRecordService) (db : DB) (now : Int)
    (content : String) (promptTokens completionTokens totalTokens status : Int)
    (errorMsg : String) : DB × Option String :=
  (crs.assistantRecord now content promptTokens completionTokens totalTokens status
    errorMsg).Insert db now

/-- SaveSystemMessage: the record it builds. -/
def ChatRecordService.systemRecord (crs : ChatRecordService) (content : String) : ChatRecord :=
  { ChatRecord.zero with
    UserId := crs.userId, TokenId := crs.tokenId, ConversationId := crs.conversationId,
    Role := ChatRoleSystem, Content := content, Model := crs.model,
    ChannelId := crs.channelId, ChannelName := crs.channelName, ApiType := crs.apiType,
    RequestId := crs.requestId, Status := ChatRecordStatusSuccess }

/-- SaveSystemMessage. -/
def ChatRecordService.SaveSystemMessage (crs : ChatRecordService) (db : DB) (now : Int)
    (content : String) : DB × Option String :=
  (crs.systemRecord content).Insert db now

/-- SaveDeveloperMessage: the record it builds. -/
def ChatRecordService.developerRecord (crs : ChatRecordService) (content : String) :
    ChatRecord :=
  { ChatRecord.zero with
    UserId := crs.userId, TokenId := crs.tokenId, ConversationId := crs.conversationId,
    Role := ChatRoleDeveloper, Content := content, Model := crs.model,
    ChannelId := crs.channelId, ChannelName := crs.channelName, ApiType := crs.apiType,
    RequestId := crs.requestId, Status := ChatRecordStatusSuccess }

/-- SaveDeveloperMessage. -/
def ChatRecordService.SaveDeveloperMessage (crs : ChatRecordService) (db : DB) (now : Int)
    (content : String) : DB × Option String :=
  (crs.developerRecord content).Insert db now

/-- GetConversationId. -/
def ChatRecordService.GetConversationId (crs : ChatRecordService) : String :=
  crs.conversationId

/-- SetConversationId. -/
def ChatRecordService.SetConversationId (crs : ChatRecordService) (conversationId : String) :
    ChatRecordService :=
  { crs with conversationId := conversationId }

/-- The arguments of one SaveChatRecordAsync call: the work handed to its goroutine. -/
structure AuditCall where
  service : ChatRecordService
  content : String
  role : String
  promptTokens : Int
  completionTokens : Int
  totalTokens : Int
  status : Int
  errorMsg : String
deriving DecidableEq, Repr

/-- The body of the goroutine SaveChatRecordAsync starts, run against the store at clock
`now`: the switch on the role.  An error is logged only, so the store is all that is left. -/
def AuditCall.run (a : AuditCall) (db : DB) (now : Int) : DB :=
  if a.role = ChatRoleUser ∨ a.role = ChatRoleSystem then
    (a.service.SaveUserMessage db now a.content a.role).1
  else if a.role = ChatRoleAssistant then
    (a.service.SaveAssistantMessage db now a.content a.promptTokens a.completionTokens
      a.totalTokens a.status a.errorMsg).1
  else if a.role = ChatRoleDeveloper then
    (a.service.SaveDeveloperMessage db now a.content).1
  else db

/-! ## relay/controller/text.go -/


/-- The relaymodel.ErrorWithStatusCode value: the embedded error and the HTTP status. -/
structure ErrorWithStatusCode where
  Message : String
  Type_ : String
  Code : String
  StatusCode : Int
deriving DecidableEq, Repr

/-- Modelled from the spec: openai.ErrorWrapper is not among the files under verification.
It wraps a Go error into the one well-formed error handed to the caller, carrying the message
of the error, the given stable code and the given HTTP status. -/
def ErrorWrapper (err : String) (code : String) (statusCode : Int) : ErrorWithStatusCode :=
  { Message := err, Type_ := "one_api_error", Code := code, StatusCode := statusCode }

/-- One message of the request; `Content` is what msg.StringContent() renders. -/
structure Message where
  Role : String
  Content : String
deriving DecidableEq, Repr

/-- The fields of relaymodel.GeneralOpenAIRequest the orchestrator reads or writes. -/
structure GeneralOpenAIRequest where
  Model : String
  Messages : List Message
  Stream : Bool
deriving DecidableEq, Repr

/-- The fields of meta.Meta the orchestrator reads or writes. -/
structure Meta where
  Mode : Int
  UserId : Int
  TokenId : Int
  ChannelId : Int
  ChannelType : Int
  APIType : Int
  Group : String
  ModelMapping : List (String × String)
  ForcedSystemPrompt : String
  OriginModelName : String
  ActualModelName : String
  IsStream : Bool
  PromptTokens : Int
deriving DecidableEq, Repr

/-- The relaymodel.Usage report. -/
structure Usage where
  PromptTokens : Int
  CompletionTokens : Int
  TotalTokens : Int
deriving DecidableEq, Repr

/-- The upstream HTTP response as far as the orchestrator passes it on. -/
structure Response where
  StatusCode : Int
  Body : String
deriving DecidableEq, Repr

/-- The adaptor capability: the three calls of adaptor.Adaptor the orchestrator makes, each
given by its result.  DoResponse returns the pair (usage, error) of Go, either of which may
be nil. -/
structure Adaptor where
  ConvertRequest : Int → GeneralOpenAIRequest → Except String String
  DoRequest : Meta → String → Except String Response
  DoResponse : Response → Meta → Option Usage × Option ErrorWithStatusCode

/-- Everything RelayTextHelper calls that lives outside the files under verification, as
functions of the arguments it passes, together with the constants and the request context it
reads. -/
structure Env where
  /-- The constant relaymode.ChatCompletions. -/
  ChatCompletions : Int
  /-- The constant apitype.OpenAI. -/
  apitypeOpenAI : Int
  /-- The constant channeltype.Baichuan. -/
  channeltypeBaichuan : Int
  /-- The setting config.EnforceIncludeUsage. -/
  EnforceIncludeUsage : Bool
  /-- The raw body c.Request.Body. -/
  requestBody : String
  /-- The clock read by NewChatRecordService. -/
  now : Int
  getAndValidateTextRequest : Int → Except String GeneralOpenAIRequest
  getMappedModelName : String → List (String × String) → String
  generateConversationId : Int → String
  setSystemPrompt : GeneralOpenAIRequest → String → GeneralOpenAIRequest × Bool
  GetModelRatio : String → Int → ℚ
  GetGroupRatio : String → ℚ
  getPromptTokens : GeneralOpenAIRequest → Int → Int
  preConsumeQuota : GeneralOpenAIRequest → Int → ℚ → Meta → Except ErrorWithStatusCode Int
  GetAdaptor : Int → Option Adaptor
  jsonMarshal : String → Except String String
  isErrorHappened : Meta → Response → Bool
  RelayErrorHandler : Response → ErrorWithStatusCode

/-- The arguments of the detached postConsumeQuota call. -/
structure SettleCall where
  usage : Option Usage
  meta : Meta
  textRequest : GeneralOpenAIRequest
  pricing : ℚ
  preConsumedQuota : Int
  modelRatio : ℚ
  groupRatio : ℚ
  systemPromptReset : Bool
deriving DecidableEq

/-- The effects of RelayTextHelper, in program order.  An event of a call whose result
steers the run also records that result. -/
inductive Event where
  /-- A call model.SaveChatRecordAsync(...): one audit turn is issued. -/
  | audit (a : AuditCall)
  /-- The call preConsumeQuota(...) and what it returned: the reserved quota or the error. -/
  | reserve (promptTokens : Int) (pricing : ℚ) (result : Except ErrorWithStatusCode Int)
  /-- The lookup relay.GetAdaptor(apiType) and whether it returned an adaptor. -/
  | getAdaptor (apiType : Int) (found : Bool)
  /-- The call adaptor.Init(meta). -/
  | adaptorInit
  /-- The call adaptor.ConvertRequest(...). -/
  | convertRequest
  /-- The call adaptor.DoRequest(...) and what it returned. -/
  | doRequest (body : String) (result : Except String Response)
  /-- The test isErrorHappened(meta, resp) and its value. -/
  | isErrorHappened (value : Bool)
  /-- The call adaptor.DoResponse(...) and the pair it returned. -/
  | doResponse (usage : Option Usage) (respErr : Option ErrorWithStatusCode)
  /-- The call billing.ReturnPreConsumedQuota(ctx, quota, tokenId): the refund. -/
  | refund (quota : Int) (tokenId : Int)
  /-- The statement go postConsumeQuota(...): the settlement. -/
  | settle (s : SettleCall)

/-- How a call of RelayTextHelper ends: it returns its error (nil is none), or the request
goroutine panics. -/
inductive Completion where
  | returned (err : Option ErrorWithStatusCode)
  | panicked (msg : String)
deriving DecidableEq, Repr

/-- A run of RelayTextHelper: its effects in order and how it ended. -/
structure Outcome where
  events : List Event
  result : Completion

/-- The loop of lines 59-68: the text each role contributes, every message followed by a
newline; messages of other roles are skipped.  Returns (userContent, systemContent). -/
def collectContents : List Message → String × String
  | [] => ("", "")
  | msg :: rest =>
    let (u, s) := collectContents rest
    if msg.Role = ChatRoleUser then (msg.Content ++ "\n" ++ u, s)
    else if msg.Role = ChatRoleSystem then (u, msg.Content ++ "\n" ++ s)
    else (u, s)

/-- Lines 55-79: the audit turns issued for the request messages, system turn first. -/
def requestAudits (env : Env) (meta : Meta) (chatService : ChatRecordService)
    (textRequest : GeneralOpenAIRequest) : List Event :=
  if meta.Mode = env.ChatCompletions ∧ textRequest.Messages.length > 0 then
    let (userContent, systemContent) := collectContents textRequest.Messages
    (if systemContent.utf8ByteSize > 0 then
      [Event.audit ⟨chatService, TrimSpace systemContent, ChatRoleSystem, 0, 0, 0,
        ChatRecordStatusSuccess, ""⟩]
     else []) ++
    (if userContent.utf8ByteSize > 0 then
      [Event.audit ⟨chatService, TrimSpace userContent, ChatRoleUser, 0, 0, 0,
        ChatRecordStatusSuccess, ""⟩]
     else [])
  else []

/-- The function getRequestBody: the body sent upstream, with the events of the calls made. -/
def getRequestBody (env : Env) (meta : Meta) (textRequest : GeneralOpenAIRequest)
    (adaptor : Adaptor) : List Event × Except String String :=
  if !env.EnforceIncludeUsage ∧ meta.APIType = env.apitypeOpenAI ∧
      meta.OriginModelName = meta.ActualModelName ∧
      meta.ChannelType ≠ env.channeltypeBaichuan ∧ meta.ForcedSystemPrompt = "" then
    ([], .ok env.requestBody)
  else
    match adaptor.ConvertRequest meta.Mode textRequest with
    | .error err => ([Event.convertRequest], .error err)
    | .ok convertedRequest =>
      match env.jsonMarshal convertedRequest with
      | .error err => ([Event.convertRequest], .error err)
      | .ok jsonData => ([Event.convertRequest], .ok jsonData)

/-- Lines 119-147 of RelayTextHelper: from the call of DoResponse to the end. -/
def relayResponse (env : Env) (meta : Meta) (chatService : ChatRecordService)
    (textRequest : GeneralOpenAIRequest) (adaptor : Adaptor) (resp : Response)
    (pricing : ℚ) (preConsumedQuota : Int) (modelRatio groupRatio : ℚ)
    (systemPromptReset : Bool) : Outcome :=
  match adaptor.DoResponse resp meta with
  | (usage, some respErr) =>
    let ev := [Event.doResponse usage (some respErr),
      Event.refund preConsumedQuota meta.TokenId]
    if meta.Mode = env.ChatCompletions then
      let errorMsg := respErr.Message
      match usage with
      | none => ⟨ev, .panicked "nil pointer dereference"⟩
      | some u =>
        ⟨ev ++ [Event.audit ⟨chatService, "", ChatRoleAssistant, u.PromptTokens,
          u.CompletionTokens, u.TotalTokens, ChatRecordStatusFailed, errorMsg⟩],
          .returned (some respErr)⟩
    else ⟨ev, .returned (some respErr)⟩
  | (usage, none) =>
    let ev := [Event.doResponse usage none]
    let post := Event.settle ⟨usage, meta, textRequest, pricing, preConsumedQuota,
      modelRatio, groupRatio, systemPromptReset⟩
    if meta.Mode = env.ChatCompletions then
      match usage with
      | none => ⟨ev, .panicked "nil pointer dereference"⟩
      | some u =>
        ⟨ev ++ [Event.audit ⟨chatService, "[响应已发送]", ChatRoleAssistant, u.PromptTokens,
          u.CompletionTokens, u.TotalTokens, ChatRecordStatusSuccess, ""⟩, post],
          .returned none⟩
    else ⟨ev ++ [post], .returned none⟩

/-- Lines 96-147 of RelayTextHelper: what follows a successful preConsumeQuota. -/
def relayDispatch (env : Env) (meta : Meta) (chatService : ChatRecordService)
    (textRequest : GeneralOpenAIRequest) (pricing : ℚ) (preConsumedQuota : Int)
    (modelRatio groupRatio : ℚ) (systemPromptReset : Bool) : Outcome :=
  match env.GetAdaptor meta.APIType with
  | none =>
    ⟨[Event.getAdaptor meta.APIType false],
      .returned (some (ErrorWrapper ("invalid api type: " ++ toString meta.APIType)
        "invalid_api_type" StatusBadRequest))⟩
  | some adaptor =>
    let ev := [Event.getAdaptor meta.APIType true, Event.adaptorInit]
    let (evBody, body) := getRequestBody env meta textRequest adaptor
    let ev := ev ++ evBody
    match body with
    | .error err =>
      ⟨ev, .returned (some (ErrorWrapper err "convert_request_failed"
        StatusInternalServerError))⟩
    | .ok requestBody =>
      match adaptor.DoRequest meta requestBody with
      | .error err =>
        ⟨ev ++ [Event.doRequest requestBody (.error err)],
          .returned (some (ErrorWrapper err "do_request_failed" StatusInternalServerError))⟩
      | .ok resp =>
        let ev := ev ++ [Event.doRequest requestBody (.ok resp)]
        if env.isErrorHappened meta resp then
          ⟨ev ++ [Event.isErrorHappened true, Event.refund preConsumedQuota meta.TokenId],
            .returned (some (env.RelayErrorHandler resp))⟩
        else
          let rest := relayResponse env meta chatService textRequest adaptor resp pricing
            preConsumedQuota modelRatio groupRatio systemPromptReset
          ⟨ev ++ [Event.isErrorHappened false] ++ rest.events, rest.result⟩

/-- The function RelayTextHelper.  Calls to the logger are left out. -/
def RelayTextHelper (env : Env) (meta : Meta) : Outcome :=
  match env.getAndValidateTextRequest meta.Mode with
  | .error err =>
    ⟨[], .returned (some (ErrorWrapper err "invalid_text_request" StatusBadRequest))⟩
  | .ok textRequest =>
    let meta := { meta with IsStream := textRequest.Stream }
    let meta := { meta with OriginModelName := textRequest.Model }
    let textRequest :=
      { textRequest with Model := env.getMappedModelName textRequest.Model meta.ModelMapping }
    let meta := { meta with ActualModelName := textRequest.Model }
    let chatService := NewChatRecordService env.generateConversationId env.now
      meta.UserId meta.TokenId meta.ChannelId "" meta.APIType meta.ActualModelName ""
    let ev := requestAudits env meta chatService textRequest
    let (textRequest, systemPromptReset) :=
      env.setSystemPrompt textRequest meta.ForcedSystemPrompt
    let modelRatio := env.GetModelRatio textRequest.Model meta.ChannelType
    let groupRatio := env.GetGroupRatio meta.Group
    let pricing := modelRatio * groupRatio
    let promptTokens := env.getPromptTokens textRequest meta.Mode
    let meta := { meta with PromptTokens := promptTokens }
    match env.preConsumeQuota textRequest promptTokens pricing meta with
    | .error bizErr =>
      ⟨ev ++ [Event.reserve promptTokens pricing (.error bizErr)], .returned (some bizErr)⟩
    | .ok preConsumedQuota =>
      let rest := relayDispatch env meta chatService textRequest pricing preConsumedQuota
        modelRatio groupRatio systemPromptReset
      ⟨ev ++ [Event.reserve promptTokens pricing (.ok preConsumedQuota)] ++ rest.events,
        rest.result⟩

/-! ### Observations on a run -/

/-- The quota reserved in a run: what a successful preConsumeQuota returned. -/
def Outcome.reservation (o : Outcome) : Option Int :=
  o.events.findSome? (fun e => match e with | .reserve _ _ (.ok q) => some q | _ => none)

/-- The error of a failed preConsumeQuota call of the run. -/
def Outcome.reserveError (o : Outcome) : Option ErrorWithStatusCode :=
  o.events.findSome? (fun e => match e with | .reserve _ _ (.error e) => some e | _ => none)

/-- The amounts handed to billing.ReturnPreConsumedQuota in a run, in order. -/
def Outcome.refunds (o : Outcome) : List Int :=
  o.events.filterMap (fun e => match e with | .refund q _ => some q | _ => none)

/-- The settlements started in a run, in order. -/
def Outcome.settles (o : Outcome) : List SettleCall :=
  o.events.filterMap (fun e => match e with | .settle s => some s | _ => none)

/-- The audit turns issued in a run, in order. -/
def Outcome.audits (o : Outcome) : List AuditCall :=
  o.events.filterMap (fun e => match e with | .audit a => some a | _ => none)

/-- The audit turns of one role issued in a run. -/
def Outcome.auditsOf (o : Outcome) (role : String) : List AuditCall :=
  o.audits.filter (fun a => a.role = role)

/-- The adaptor lookups and adaptor calls made in a run. -/
def Outcome.adaptorCalls (o : Outcome) : List Event :=
  o.events.filter (fun e => match e with
    | .getAdaptor _ _ => true | .adaptorInit => true | .convertRequest => true
    | .doRequest _ _ => true | .doResponse _ _ => true | _ => false)

/-- Whether adaptor.DoRequest was called in the run and returned an error. -/
def Outcome.doRequestFailed (o : Outcome) : Bool :=
  o.events.any (fun e => match e with | .doRequest _ (.error _) => true | _ => false)

/-- Whether isErrorHappened was evaluated in the run and was true. -/
def Outcome.upstreamErrorStatus (o : Outcome) : Bool :=
  o.events.any (fun e => match e with | .isErrorHappened true => true | _ => false)

/-- The pair adaptor.DoResponse returned in the run, when it was called. -/
def Outcome.response (o : Outcome) : Option (Option Usage × Option ErrorWithStatusCode) :=
  o.events.findSome? (fun e => match e with | .doResponse u e => some (u, e) | _ => none)

/-! ### The scenario of the specification

A user sends a chat-completions request of 10 prompt tokens at pricing 2.0; 20 is reserved;
upstream reports usage (10, 30, 40). -/

def scenarioRequest : GeneralOpenAIRequest :=
  { Model := "gpt-3.5-turbo", Messages := [⟨"user", "hello"⟩], Stream := false }

def scenarioMeta : Meta :=
  { Mode := 1, UserId := 7, TokenId := 3, ChannelId := 5, ChannelType := 1, APIType := 0,
    Group := "default", ModelMapping := [], ForcedSystemPrompt := "",
    OriginModelName := "", ActualModelName := "", IsStream := false, PromptTokens := 0 }

/-- An adaptor of the scenario, given by the results of DoRequest and DoResponse. -/
def scenarioAdaptor (doRequest : Except String Response)
    (doResponse : Option Usage × Option ErrorWithStatusCode) : Adaptor :=
  { ConvertRequest := fun _ _ => .ok "payload",
    DoRequest := fun _ _ => doRequest,
    DoResponse := fun _ _ => doResponse }

/-- The environment of the scenario, given by the result of the reservation, the adaptor
the registry holds and whether the upstream status is an error. -/
def scenarioEnv (reserve : Except ErrorWithStatusCode Int) (adaptor : Option Adaptor)
    (upstreamError : Bool) : Env :=
  { ChatCompletions := 1, apitypeOpenAI := 0, channeltypeBaichuan := 26,
    EnforceIncludeUsage := false, requestBody := "body", now := 1700000000,
    getAndValidateTextRequest := fun _ => .ok scenarioRequest,
    getMappedModelName := fun m _ => m,
    generateConversationId := fun _ => "0123456789abcdef",
    setSystemPrompt := fun r _ => (r, false),
    GetModelRatio := fun _ _ => 2,
    GetGroupRatio := fun _ => 1,
    getPromptTokens := fun _ _ => 10,
    preConsumeQuota := fun _ _ _ _ => reserve,
    GetAdaptor := fun _ => adaptor,
    jsonMarshal := fun s => .ok s,
    isErrorHappened := fun _ _ => upstreamError,
    RelayErrorHandler := fun resp =>
      { Message := resp.Body, Type_ := "upstream_error", Code := "bad_response_status_code",
        StatusCode := resp.StatusCode } }

/-- The chat record service RelayTextHelper builds in the scenario. -/
def scenarioService : ChatRecordService :=
  { conversationId := "0123456789abcdef", userId := 7, tokenId := 3, channelId := 5,
    channelName := "", apiType := 0, model := "gpt-3.5-turbo", requestId := "",
    startTime := 1700000000 }


/-! ## controller/chat_record.go -/

/-- The error of Go strconv.Atoi. -/
inductive NumError where
  | ErrSyntax
  | ErrRange
deriving DecidableEq, Repr

/-- The value of a string of decimal digits; none when the string is empty or holds any
other character. -/
def parseDigits (cs : List Char) : Option Nat :=
  if cs = [] then none
  else cs.foldl (fun acc c =>
    match acc with
    | none => none
    | some n => if c.isDigit then some (10 * n + (c.toNat - 48)) else none) (some 0)

/-- Go strconv.Atoi on a 64-bit platform: an optional sign and decimal digits.  On a syntax
error the value is 0; a numeral out of range yields the nearest bound together with the
range error. -/
def Atoi (s : String) : Int × Option NumError :=
  let (neg, ds) :=
    match s.data with
    | '-' :: ds => (true, ds)
    | '+' :: ds => (false, ds)
    | ds => (false, ds)
  match parseDigits ds with
  | none => (0, some .ErrSyntax)
  | some un =>
    if !neg ∧ un ≥ 2 ^ 63 then (2 ^ 63 - 1, some .ErrRange)
    else if neg ∧ un > 2 ^ 63 then (-(2 ^ 63), some .ErrRange)
    else (if neg then -(un : Int) else (un : Int), none)

/-- The value under the key data of a response body. -/
inductive Data where
  | absent
  | record (r : ChatRecord)
  | records (rs : List ChatRecord)
deriving DecidableEq, Repr

/-- The records a response body carries. -/
def Data.toList : Data → List ChatRecord
  | .absent => []
  | .record r => [r]
  | .records rs => rs

/-- The call c.JSON(status, gin.H ...) a handler answers with. -/
structure JSONResponse where
  status : Int
  success : Bool
  message : String
  data : Data
deriving DecidableEq, Repr

/-- GetChatRecords.  `userId` is c.GetInt("id"); the strings are the query parameters,
empty when absent. -/
def GetChatRecords (db : DB) (userId : Int) (start_idx num conversation_id : String) :
    JSONResponse :=
  let startIdx := (Atoi start_idx).1
  let num := (Atoi num).1
  let conversationId := conversation_id
  let num := if num ≤ 0 then 20 else num
  let startIdx := if startIdx < 0 then 0 else startIdx
  match GetChatRecordsByUserId db userId startIdx num conversationId with
  | (_, some _) => ⟨StatusInternalServerError, false, "获取聊天记录失败", .absent⟩
  | (records, none) => ⟨StatusOK, true, "", .records records⟩

/-- GetChatRecordById (handler).  `id` is the path parameter. -/
def GetChatRecordByIdHandler (db : DB) (userId : Int) (id : String) : JSONResponse :=
  match Atoi id with
  | (_, some _) => ⟨StatusBadRequest, false, "无效的记录ID", .absent⟩
  | (id, none) =>
    match GetChatRecordById db id with
    | (_, some _) => ⟨StatusNotFound, false, "聊天记录不存在", .absent⟩
    | (record, none) =>
      if record.UserId ≠ userId then ⟨StatusForbidden, false, "无权访问此记录", .absent⟩
      else ⟨StatusOK, true, "", .record record⟩

/-- GetConversationRecords. -/
def GetConversationRecords (db : DB) (userId : Int) (conversation_id : String) :
    JSONResponse :=
  let conversationId := conversation_id
  if conversationId = "" then ⟨StatusBadRequest, false, "会话ID不能为空", .absent⟩
  else
    match GetChatRecordsByConversationId db conversationId with
    | (_, some _) => ⟨StatusInternalServerError, false, "获取会话记录失败", .absent⟩
    | (records, none) =>
      let userRecords := records.filter (fun record => record.UserId = userId)
      ⟨StatusOK, true, "", .records userRecords⟩

/-- DeleteChatRecord: the store it leaves and the response. -/
def DeleteChatRecord (db : DB) (userId : Int) (id : String) : DB × JSONResponse :=
  match Atoi id with
  | (_, some _) => (db, ⟨StatusBadRequest, false, "无效的记录ID", .absent⟩)
  | (id, none) =>
    match DeleteChatRecordById db id userId with
    | (db, some _) => (db, ⟨StatusInternalServerError, false, "删除聊天记录失败", .absent⟩)
    | (db, none) => (db, ⟨StatusOK, true, "删除成功", .absent⟩)

/-- DeleteConversation: the store it leaves and the response. -/
def DeleteConversation (db : DB) (userId : Int) (conversation_id : String) :
    DB × JSONResponse :=
  let conversationId := conversation_id
  if conversationId = "" then (db, ⟨StatusBadRequest, false, "会话ID不能为空", .absent⟩)
  else
    match DeleteChatRecordsByConversationId db conversationId userId with
    | (db, some _) => (db, ⟨StatusInternalServerError, false, "删除会话失败", .absent⟩)
    | (db, none) => (db, ⟨StatusOK, true, "删除成功", .absent⟩)

/-- SearchChatRecords (handler). -/
def SearchChatRecordsHandler (like : String → String → Bool) (db : DB) (userId : Int)
    (keyword start_idx num : String) : JSONResponse :=
  let startIdx := (Atoi start_idx).1
  let num := (Atoi num).1
  let num := if num ≤ 0 then 20 else num
  let startIdx := if startIdx < 0 then 0 else startIdx
  match SearchChatRecords like db userId keyword startIdx num with
  | (_, some _) => ⟨StatusInternalServerError, false, "搜索聊天记录失败", .absent⟩
  | (records, none) => ⟨StatusOK, true, "", .records records⟩

/-- Modelled from the spec: postConsumeQuota is not among the files under verification.  The
final settlement amount is totalTokens × modelRatio × groupRatio. -/
def settlementAmount (usage : Usage) (modelRatio groupRatio : ℚ) : ℚ :=
  usage.TotalTokens * modelRatio * groupRatio

/-! ### Sample runs -/

/-- The scenario with DoRequest failing on a network error. -/
def runDoRequestError : Outcome :=
  RelayTextHelper (scenarioEnv (.ok 20)
    (some (scenarioAdaptor (.error "dial tcp: connection refused") (none, none))) false)
    scenarioMeta

/-- The scenario with no adaptor registered for the api type. -/
def runNoAdaptor : Outcome :=
  RelayTextHelper (scenarioEnv (.ok 20) none false) scenarioMeta

/-- The scenario with upstream answering 429. -/
def runUpstreamStatus : Outcome :=
  RelayTextHelper (scenarioEnv (.ok 20)
    (some (scenarioAdaptor (.ok ⟨429, "rate limit reached"⟩) (none, none))) true)
    scenarioMeta

/-- The scenario with the reservation denied. -/
def runInsufficientQuota : Outcome :=
  RelayTextHelper (scenarioEnv
    (.error ⟨"user quota is not enough", "one_api_error", "insufficient_user_quota", 403⟩)
    (some (scenarioAdaptor (.ok ⟨200, ""⟩) (some ⟨10, 30, 40⟩, none))) false)
    scenarioMeta

/-- The scenario as the specification tells it: upstream reports usage (10, 30, 40). -/
def runSuccess : Outcome :=
  RelayTextHelper (scenarioEnv (.ok 20)
    (some (scenarioAdaptor (.ok ⟨200, ""⟩) (some ⟨10, 30, 40⟩, none))) false)
    scenarioMeta

/-- The scenario with DoResponse failing before any usage was reported. -/
def runDoResponseError : Outcome :=
  RelayTextHelper (scenarioEnv (.ok 20)
    (some (scenarioAdaptor (.ok ⟨200, ""⟩)
      (none, some ⟨"unexpected end of JSON input", "one_api_error",
        "unmarshal_response_body_failed", 500⟩))) false)
    scenarioMeta

/-- The assistant audit turn RelayTextHelper issues in the scenario. -/
def scenarioAssistantTurn : AuditCall :=
  ⟨scenarioService, "[响应已发送]", ChatRoleAssistant, 10, 30, 40, ChatRecordStatusSuccess, ""⟩

/-! ### Sample stores -/

/-- A row of user `userId` created at `createdTime`, all other columns zero. -/
def sampleRow (id userId createdTime : Int) (conversationId : String) : ChatRecord :=
  { ChatRecord.zero with
    Id := id, UserId := userId, CreatedTime := createdTime, UpdatedTime := createdTime,
    ConversationId := conversationId, Role := ChatRoleUser, Content := "hello" }

/-- A store with rows of the users 7 and 9 in the conversations c1 and c2. -/
def sampleStore : DB :=
  ⟨[sampleRow 1 7 100 "c1", sampleRow 2 9 101 "c1", sampleRow 3 7 102 "c1",
    sampleRow 4 7 103 "c2"], none⟩

/-- Lines 40-41 of RelayTextHelper: the validated request with its model name mapped. -/
def mappedRequest (env : Env) (meta : Meta) (textRequest : GeneralOpenAIRequest) :
    GeneralOpenAIRequest :=
  { textRequest with Model := env.getMappedModelName textRequest.Model meta.ModelMapping }

/-- The request as RelayTextHelper holds it from line 82 on: the mapped request after
setSystemPrompt. -/
def dispatchRequest (env : Env) (meta : Meta) (textRequest : GeneralOpenAIRequest) :
    GeneralOpenAIRequest :=
  (env.setSystemPrompt (mappedRequest env meta textRequest) meta.ForcedSystemPrompt).1

/-- The meta as RelayTextHelper holds it from line 89 on: IsStream, OriginModelName,
ActualModelName and PromptTokens are set (lines 37, 40, 42, 89). -/
def dispatchMeta (env : Env) (meta : Meta) (textRequest : GeneralOpenAIRequest) : Meta :=
  { meta with
    IsStream := textRequest.Stream,
    OriginModelName := textRequest.Model,
    ActualModelName := (mappedRequest env meta textRequest).Model,
    PromptTokens := env.getPromptTokens (dispatchRequest env meta textRequest) meta.Mode }

/-- Lines 45-53 of RelayTextHelper: the chat record service of the run. -/
def requestService (env : Env) (meta : Meta) (textRequest : GeneralOpenAIRequest) :
    ChatRecordService :=
  NewChatRecordService env.generateConversationId env.now meta.UserId meta.TokenId
    meta.ChannelId "" meta.APIType (mappedRequest env meta textRequest).Model ""

/-- The HTTP status of the error a run returns; none when it returns nil or panics. -/
def Outcome.statusCode (o : Outcome) : Option Int :=
  match o.result with
  | .returned (some e) => some e.StatusCode
  | _ => none

/-! ### The texts of the request messages -/

/-- The contents of the messages of one role, in the order of the request. -/
def contentsOf (role : String) (messages : List Message) : List String :=
  (messages.filter (fun msg => msg.Role = role)).map (fun msg => msg.Content)

/-- What a strings.Builder holds after each of the strings, followed by a newline, has been
written to it. -/
def linesOf : List String → String
  | [] => ""
  | c :: rest => c ++ "\n" ++ linesOf rest

/-- A chat-completions request whose user messages begin and end with white space. -/
def paddedRequest : GeneralOpenAIRequest :=
  { Model := "gpt-3.5-turbo",
    Messages := [⟨"system", "be brief"⟩, ⟨"user", "  hello"⟩, ⟨"assistant", "hi"⟩,
      ⟨"user", "world \n"⟩],
    Stream := false }

/-- A chat-completions request whose only user message is blank. -/
def blankRequest : GeneralOpenAIRequest :=
  { Model := "gpt-3.5-turbo", Messages := [⟨"user", " "⟩], Stream := false }

/-- The scenario of the specification with another request in place of the one of the
scenario. -/
def runRequest (request : GeneralOpenAIRequest) : Outcome :=
  RelayTextHelper
    { scenarioEnv (.ok 20) (some (scenarioAdaptor (.ok ⟨200, ""⟩) (some ⟨10, 30, 40⟩, none)))
        false with
      getAndValidateTextRequest := fun _ => .ok request }
    scenarioMeta

/-! ### Sequences of method calls on a ChatRecordService -/

/-- One call of a Save method of ChatRecordService, with its arguments. -/
inductive SaveCall where
  | SaveUserMessage (content role : String)
  | SaveSystemMessage (content : String)
  | SaveDeveloperMessage (content : String)
  | SaveAssistantMessage (content : String)
      (promptTokens completionTokens totalTokens status : Int) (errorMsg : String)
deriving DecidableEq, Repr

/-- The Save method a SaveCall names, called on the service against the store at clock
`now`. -/
def SaveCall.run (c : SaveCall) (crs : ChatRecordService) (db : DB) (now : Int) :
    DB × Option String :=
  match c with
  | .SaveUserMessage content role => crs.SaveUserMessage db now content role
  | .SaveSystemMessage content => crs.SaveSystemMessage db now content
  | .SaveDeveloperMessage content => crs.SaveDeveloperMessage db now content
  | .SaveAssistantMessage content promptTokens completionTokens totalTokens status errorMsg =>
    crs.SaveAssistantMessage db now content promptTokens completionTokens totalTokens status
      errorMsg

/-- One method call on a ChatRecordService: a Save call made at clock `now`, or
SetConversationId. -/
inductive ServiceCall where
  | save (c : SaveCall) (now : Int)
  | SetConversationId (conversationId : String)
deriving DecidableEq, Repr

/-- The service behind its pointer together with the store: what a method call acts on. -/
structure ServiceState where
  service : ChatRecordService
  db : DB
deriving DecidableEq, Repr

/-- The effect of one method call.  The Save methods read the fields of the receiver and
assign none of them; SetConversationId assigns conversationId. -/
def ServiceCall.step (call : ServiceCall) (st : ServiceState) : ServiceState :=
  match call with
  | .save c now => { st with db := (c.run st.service st.db now).1 }
  | .SetConversationId conversationId =>
    { st with service := st.service.SetConversationId conversationId }

/-- A sequence of method calls, made one after the other. -/
def runCalls (calls : List ServiceCall) (st : ServiceState) : ServiceState :=
  calls.foldl (fun st call => call.step st) st

/-- A sequence of Save calls with their clocks, as method calls. -/
def saveCalls (saves : List (SaveCall × Int)) : List ServiceCall :=
  saves.map (fun p => ServiceCall.save p.1 p.2)

/-! ## Theorems -/

/-! ### The relay orchestrator -/

/-- C1, evaluated on the code.  With 20 reserved, a run in which DoRequest fails and a run
in which the registry has no adaptor both end with neither a refund nor a settlement: the
reservation is left unresolved. -/
theorem RelayTextHelper_early_return_resolves_nothing :
    (runDoRequestError.reservation = some 20 ∧ runDoRequestError.refunds = [] ∧
      runDoRequestError.settles.length = 0) ∧
    (runNoAdaptor.reservation = some 20 ∧ runNoAdaptor.refunds = [] ∧
      runNoAdaptor.settles.length = 0) := by
  decide

/-- C2, evaluated on the code.  With 20 reserved and DoRequest failing, the run returns the
wrapped error with status 500 and starts no settlement, but it refunds nothing and issues no
assistant audit turn. -/
theorem RelayTextHelper_doRequest_error_run :
    runDoRequestError.reservation = some 20 ∧ runDoRequestError.doRequestFailed = true ∧
    runDoRequestError.settles.length = 0 ∧
    runDoRequestError.refunds = [] ∧
    runDoRequestError.auditsOf ChatRoleAssistant = [] ∧
    runDoRequestError.result = .returned (some (ErrorWrapper "dial tcp: connection refused"
      "do_request_failed" StatusInternalServerError)) := by
  decide

/-- C3, evaluated on the code.  With 20 reserved and upstream answering with an error
status, the run refunds the 20 and returns the upstream error, but issues no assistant audit
turn. -/
theorem RelayTextHelper_upstream_status_run :
    runUpstreamStatus.upstreamErrorStatus = true ∧
    runUpstreamStatus.refunds = [20] ∧
    runUpstreamStatus.result = .returned (some ⟨"rate limit reached", "upstream_error",
      "bad_response_status_code", 429⟩) ∧
    runUpstreamStatus.auditsOf ChatRoleAssistant = [] := by
  decide

/-- C6, evaluated on the code.  With 20 reserved and DoResponse returning an error and a nil
usage, the run refunds the 20 and then panics on the nil usage: no assistant audit turn is
issued and no error is returned. -/
theorem RelayTextHelper_nil_usage_run :
    runDoResponseError.response = some (none, some ⟨"unexpected end of JSON input",
      "one_api_error", "unmarshal_response_body_failed", 500⟩) ∧
    runDoResponseError.refunds = [20] ∧
    runDoResponseError.auditsOf ChatRoleAssistant = [] ∧
    runDoResponseError.result = .panicked "nil pointer dereference" := by
  decide

/-- Every event of the request audits is an audit turn of role user or system. -/
theorem requestAudits_roles (env : Env) (meta : Meta) (cs : ChatRecordService)
    (tr : GeneralOpenAIRequest) :
    ∀ ev ∈ requestAudits env meta cs tr,
      ∃ a, ev = Event.audit a ∧ (a.role = ChatRoleUser ∨ a.role = ChatRoleSystem) := by
  intro ev hev
  unfold requestAudits at hev
  split at hev
  · simp only [List.mem_append] at hev
    rcases hev with h | h
    · split at h
      · simp only [List.mem_singleton] at h
        exact ⟨_, h, Or.inr rfl⟩
      · simp at h
    · split at h
      · simp only [List.mem_singleton] at h
        exact ⟨_, h, Or.inl rfl⟩
      · simp at h
  · simp at hev

/-- The events of getRequestBody are ConvertRequest calls. -/
theorem getRequestBody_events (env : Env) (meta : Meta) (tr : GeneralOpenAIRequest)
    (ad : Adaptor) : ∀ ev ∈ (getRequestBody env meta tr ad).1, ev = Event.convertRequest := by
  intro ev hev
  unfold getRequestBody at hev
  split at hev
  · simp at hev
  · split at hev
    · simpa using hev
    · split at hev <;> simpa using hev

/-- The events of relayResponse, by the pair DoResponse returned. -/
theorem relayResponse_events (env : Env) (meta : Meta) (cs : ChatRecordService)
    (tr : GeneralOpenAIRequest) (ad : Adaptor) (resp : Response) (pricing : ℚ) (q : Int)
    (mr gr : ℚ) (spr : Bool) :
    ∀ ev ∈ (relayResponse env meta cs tr ad resp pricing q mr gr spr).events,
      (∃ u e, ev = Event.doResponse u e) ∨ (∃ t, ev = Event.refund q t) ∨
      (∃ a, ev = Event.audit a ∧ a.role = ChatRoleAssistant) ∨ (∃ s, ev = Event.settle s) := by
  intro ev hev
  unfold relayResponse at hev
  split at hev
  · split at hev
    · split at hev
      · simp at hev
        rcases hev with h | h
        · exact Or.inl ⟨_, _, h⟩
        · exact Or.inr (Or.inl ⟨_, h⟩)
      · simp at hev
        rcases hev with h | h | h
        · exact Or.inl ⟨_, _, h⟩
        · exact Or.inr (Or.inl ⟨_, h⟩)
        · exact Or.inr (Or.inr (Or.inl ⟨_, h, rfl⟩))
    · simp at hev
      rcases hev with h | h
      · exact Or.inl ⟨_, _, h⟩
      · exact Or.inr (Or.inl ⟨_, h⟩)
  · split at hev
    · split at hev
      · simp at hev
        exact Or.inl ⟨_, _, hev⟩
      · simp at hev
        rcases hev with h | h | h
        · exact Or.inl ⟨_, _, h⟩
        · exact Or.inr (Or.inr (Or.inl ⟨_, h, rfl⟩))
        · exact Or.inr (Or.inr (Or.inr ⟨_, h⟩))
    · simp at hev
      rcases hev with h | h
      · exact Or.inl ⟨_, _, h⟩
      · exact Or.inr (Or.inr (Or.inr ⟨_, h⟩))

/-- No event of relayDispatch is a reservation or an audit turn of role user or system. -/
theorem relayDispatch_events (env : Env) (meta : Meta) (cs : ChatRecordService)
    (tr : GeneralOpenAIRequest) (pricing : ℚ) (q : Int) (mr gr : ℚ) (spr : Bool) :
    ∀ ev ∈ (relayDispatch env meta cs tr pricing q mr gr spr).events,
      (∀ p r x, ev ≠ Event.reserve p r x) ∧
      (∀ a, ev = Event.audit a → a.role = ChatRoleAssistant) := by
  intro ev hev
  unfold relayDispatch at hev
  split at hev
  · simp at hev
    subst hev
    simp
  · rename_i ad _
    have hb := getRequestBody_events env meta tr ad
    generalize getRequestBody env meta tr ad = gb at hev hb
    obtain ⟨evBody, body⟩ := gb
    simp only at hev hb
    have hconv : ev ∈ evBody → (∀ p r x, ev ≠ Event.reserve p r x) ∧
        (∀ a, ev = Event.audit a → a.role = ChatRoleAssistant) := by
      intro h
      rw [hb ev h]
      simp
    split at hev
    · simp only [List.mem_append, List.mem_cons, List.mem_singleton, List.not_mem_nil,
        or_false] at hev
      rcases hev with (h | h) | h
      · subst h; simp
      · subst h; simp
      · exact hconv h
    · split at hev
      · simp only [List.mem_append, List.mem_cons, List.mem_singleton, List.not_mem_nil,
          or_false] at hev
        rcases hev with ((h | h) | h) | h
        · subst h; simp
        · subst h; simp
        · exact hconv h
        · subst h; simp
      · split at hev
        · simp only [List.mem_append, List.mem_cons, List.mem_singleton, List.not_mem_nil,
            or_false] at hev
          rcases hev with (((h | h) | h) | h) | h | h
          · subst h; simp
          · subst h; simp
          · exact hconv h
          · subst h; simp
          · subst h; simp
          · subst h; simp
        · simp only [List.mem_append, List.mem_cons, List.mem_singleton, List.not_mem_nil,
            or_false] at hev
          rcases hev with ((((h | h) | h) | h) | h) | h
          · subst h; simp
          · subst h; simp
          · exact hconv h
          · subst h; simp
          · subst h; simp
          · rcases relayResponse_events _ _ _ _ _ _ _ _ _ _ _ ev h with
              ⟨u, e, h⟩ | ⟨t, h⟩ | ⟨a, h, ha⟩ | ⟨s', h⟩
            · subst h; simp
            · subst h; simp
            · subst h; simp [ha]
            · subst h; simp

/-- The three shapes of a run of RelayTextHelper: validation fails; the reservation fails;
the reservation succeeds and the run goes on with relayDispatch.  In each, the events before
the reservation are audit turns of role user or system. -/
theorem RelayTextHelper_cases (env : Env) (meta : Meta) :
    (∃ err, RelayTextHelper env meta =
      ⟨[], .returned (some (ErrorWrapper err "invalid_text_request" StatusBadRequest))⟩) ∨
    (∃ pre p r e,
      (∀ ev ∈ pre, ∃ a, ev = Event.audit a ∧ (a.role = ChatRoleUser ∨ a.role = ChatRoleSystem)) ∧
      RelayTextHelper env meta = ⟨pre ++ [Event.reserve p r (.error e)], .returned (some e)⟩) ∨
    (∃ pre p r q meta1 cs tr mr gr spr,
      (∀ ev ∈ pre, ∃ a, ev = Event.audit a ∧ (a.role = ChatRoleUser ∨ a.role = ChatRoleSystem)) ∧
      meta1.Mode = meta.Mode ∧
      RelayTextHelper env meta =
        ⟨pre ++ [Event.reserve p r (.ok q)] ++
          (relayDispatch env meta1 cs tr r q mr gr spr).events,
         (relayDispatch env meta1 cs tr r q mr gr spr).result⟩) := by
  unfold RelayTextHelper
  split
  · exact Or.inl ⟨_, rfl⟩
  · simp only
    split
    · exact Or.inr (Or.inl ⟨_, _, _, _, requestAudits_roles _ _ _ _, rfl⟩)
    · refine Or.inr (Or.inr
        ⟨_, _, _, _, _, _, _, _, _, _, requestAudits_roles _ _ _ _, ?_, rfl⟩)
      rfl

/-- C4, as stated, fails: in the scenario with the reservation denied for lack of quota, the
user turn of the request has been issued as an audit turn. -/
theorem RelayTextHelper_reserve_error_has_user_turn :
    runInsufficientQuota.reserveError = some ⟨"user quota is not enough", "one_api_error",
      "insufficient_user_quota", 403⟩ ∧
    runInsufficientQuota.audits =
      [⟨scenarioService, "hello", ChatRoleUser, 0, 0, 0, ChatRecordStatusSuccess, ""⟩] ∧
    runInsufficientQuota.audits ≠ [] := by
  decide

/-- C4, amended.  When preConsumeQuota returns an error, the adaptor is neither looked up nor
called, that error is returned, nothing is refunded or settled, and no assistant audit turn
is issued: the events of the run are audit turns of role user or system, issued before the
reservation is attempted, followed by the failed reservation. -/
theorem RelayTextHelper_reserve_error (env : Env) (meta : Meta) (e : ErrorWithStatusCode)
    (h : (RelayTextHelper env meta).reserveError = some e) :
    (RelayTextHelper env meta).adaptorCalls = [] ∧
    (RelayTextHelper env meta).result = .returned (some e) ∧
    (RelayTextHelper env meta).refunds = [] ∧
    (RelayTextHelper env meta).settles = [] ∧
    (RelayTextHelper env meta).auditsOf ChatRoleAssistant = [] ∧
    ∃ pre p r,
      (RelayTextHelper env meta).events = pre ++ [Event.reserve p r (.error e)] ∧
      ∀ ev ∈ pre, ∃ a, ev = Event.audit a ∧
        (a.role = ChatRoleUser ∨ a.role = ChatRoleSystem) := by
  rcases RelayTextHelper_cases env meta with
    ⟨err, hrun⟩ | ⟨pre, p, r, e1, hpre, hrun⟩ |
    ⟨pre, p, r, q, meta1, cs, tr, mr, gr, spr, hpre, _, hrun⟩
  · rw [hrun] at h
    simp [Outcome.reserveError] at h
  · rw [hrun] at h ⊢
    have hnone : pre.findSome? (fun ev => match ev with
        | .reserve _ _ (.error e) => some e | _ => none) = none := by
      rw [List.findSome?_eq_none_iff]
      intro ev hev
      obtain ⟨a, rfl, _⟩ := hpre ev hev
      rfl
    have he : e1 = e := by
      simpa [Outcome.reserveError, List.findSome?_append, hnone] using h
    subst he
    refine ⟨?_, rfl, ?_, ?_, ?_, pre, p, r, rfl, hpre⟩
    · simp only [Outcome.adaptorCalls, List.filter_append, List.append_eq_nil]
      refine ⟨?_, by simp⟩
      rw [List.filter_eq_nil_iff]
      intro ev hev
      obtain ⟨a, rfl, _⟩ := hpre ev hev
      simp
    · simp only [Outcome.refunds, List.filterMap_append, List.append_eq_nil]
      refine ⟨?_, by simp⟩
      rw [List.filterMap_eq_nil_iff]
      intro ev hev
      obtain ⟨a, rfl, _⟩ := hpre ev hev
      rfl
    · simp only [Outcome.settles, List.filterMap_append, List.append_eq_nil]
      refine ⟨?_, by simp⟩
      rw [List.filterMap_eq_nil_iff]
      intro ev hev
      obtain ⟨a, rfl, _⟩ := hpre ev hev
      rfl
    · simp only [Outcome.auditsOf, Outcome.audits, List.filterMap_append, List.filter_append,
        List.append_eq_nil]
      refine ⟨?_, by simp⟩
      rw [List.filter_eq_nil_iff]
      intro a ha
      rw [List.mem_filterMap] at ha
      obtain ⟨ev, hev, hmatch⟩ := ha
      obtain ⟨a1, rfl, hrole⟩ := hpre ev hev
      simp only [Option.some.injEq] at hmatch
      subst hmatch
      rcases hrole with hr | hr <;> rw [hr] <;> decide
  · rw [hrun] at h
    exfalso
    have hnone : (pre ++ [Event.reserve p r (.ok q)] ++
        (relayDispatch env meta1 cs tr r q mr gr spr).events).findSome? (fun ev => match ev with
        | .reserve _ _ (.error e) => some e | _ => none) = none := by
      rw [List.findSome?_eq_none_iff]
      intro ev hev
      simp only [List.mem_append, List.mem_singleton] at hev
      rcases hev with (hev | hev) | hev
      · obtain ⟨a, rfl, _⟩ := hpre ev hev
        rfl
      · subst hev
        rfl
      · have hne := (relayDispatch_events env meta1 cs tr r q mr gr spr ev hev).1
        cases ev with
        | reserve p1 r1 x => exact absurd rfl (hne p1 r1 x)
        | _ => rfl
    simp only [Outcome.reserveError] at h
    rw [hnone] at h
    exact Option.noConfusion h

/-- A run in which the reservation is denied, as the hypothesis of C4 asks. -/
theorem RelayTextHelper_reserve_error_witness :
    runInsufficientQuota.reserveError = some ⟨"user quota is not enough", "one_api_error",
      "insufficient_user_quota", 403⟩ ∧
    runInsufficientQuota.adaptorCalls = [] ∧
    runInsufficientQuota.result = .returned (some ⟨"user quota is not enough",
      "one_api_error", "insufficient_user_quota", 403⟩) ∧
    runInsufficientQuota.refunds = [] ∧
    runInsufficientQuota.settles = [] ∧
    runInsufficientQuota.auditsOf ChatRoleAssistant = [] ∧
    ∃ pre p r,
      runInsufficientQuota.events = pre ++ [Event.reserve p r (.error ⟨"user quota is not enough",
        "one_api_error", "insufficient_user_quota", 403⟩)] ∧
      ∀ ev ∈ pre, ∃ a, ev = Event.audit a ∧
        (a.role = ChatRoleUser ∨ a.role = ChatRoleSystem) :=
  ⟨by decide, RelayTextHelper_reserve_error _ scenarioMeta _ (by decide)⟩

/-- The key handed out next is none of the keys in the store. -/
theorem DB.nextId_fresh (db : DB) : db.rows.any (fun r => r.Id = db.nextId) = false := by
  have hle : ∀ (l : List Int) (init : Int), init ≤ l.foldl max init ∧
      ∀ x ∈ l, x ≤ l.foldl max init := by
    intro l
    induction l with
    | nil => intro init; simp
    | cons y ys ih =>
      intro init
      simp only [List.foldl_cons, List.mem_cons]
      refine ⟨le_trans (le_max_left init y) (ih (max init y)).1, ?_⟩
      intro x hx
      rcases hx with rfl | hx
      · exact le_trans (le_max_right init x) (ih (max init x)).1
      · exact (ih (max init y)).2 x hx
  rw [List.any_eq_false]
  intro r hr
  have h1 := (hle (db.rows.map (fun r => r.Id)) 0).2 r.Id (List.mem_map_of_mem _ hr)
  simp only [DB.nextId, decide_eq_true_eq]
  omega

/-- Insert of a record without a key into a store that executes its statements appends the
record, stamped with the clock and the next key. -/
theorem ChatRecord.Insert_fresh (cr : ChatRecord) (db : DB) (now : Int) (hid : cr.Id = 0)
    (hdb : db.fault = none) :
    (cr.Insert db now).1.rows =
      db.rows ++ [{ cr with CreatedTime := now, UpdatedTime := now, Id := db.nextId }] := by
  unfold ChatRecord.Insert
  simp only [hdb, hid, if_true]
  rw [if_neg]
  simpa using db.nextId_fresh

/-- A chat-completions run of relayResponse that returns nil consists of the DoResponse call
with a usage report and no error, the successful assistant audit turn built from that usage,
and the settlement. -/
theorem relayResponse_success (env : Env) (meta : Meta) (cs : ChatRecordService)
    (tr : GeneralOpenAIRequest) (ad : Adaptor) (resp : Response) (pricing : ℚ) (q : Int)
    (mr gr : ℚ) (spr : Bool) (hmode : meta.Mode = env.ChatCompletions)
    (hok : (relayResponse env meta cs tr ad resp pricing q mr gr spr).result = .returned none) :
    ∃ u, (relayResponse env meta cs tr ad resp pricing q mr gr spr).events =
      [Event.doResponse (some u) none,
       Event.audit ⟨cs, "[响应已发送]", ChatRoleAssistant, u.PromptTokens, u.CompletionTokens,
         u.TotalTokens, ChatRecordStatusSuccess, ""⟩,
       Event.settle ⟨some u, meta, tr, pricing, q, mr, gr, spr⟩] := by
  unfold relayResponse at hok ⊢
  split at hok
  · rename_i usage respErr heq
    rw [if_pos hmode] at hok
    split at hok <;> simp at hok
  · rename_i usage heq
    rw [if_pos hmode] at hok
    cases usage with
    | none => simp at hok
    | some u =>
      refine ⟨u, ?_⟩
      simp [if_pos hmode]

/-- A chat-completions run of relayDispatch that returns nil: some dispatch steps, none of
them an audit turn or a DoResponse call, followed by the three events of the successful
response. -/
theorem relayDispatch_success (env : Env) (meta : Meta) (cs : ChatRecordService)
    (tr : GeneralOpenAIRequest) (pricing : ℚ) (q : Int) (mr gr : ℚ) (spr : Bool)
    (hmode : meta.Mode = env.ChatCompletions)
    (hok : (relayDispatch env meta cs tr pricing q mr gr spr).result = .returned none) :
    ∃ pre u, (relayDispatch env meta cs tr pricing q mr gr spr).events = pre ++
      [Event.doResponse (some u) none,
       Event.audit ⟨cs, "[响应已发送]", ChatRoleAssistant, u.PromptTokens, u.CompletionTokens,
         u.TotalTokens, ChatRecordStatusSuccess, ""⟩,
       Event.settle ⟨some u, meta, tr, pricing, q, mr, gr, spr⟩] ∧
      ∀ ev ∈ pre, (∀ a, ev ≠ Event.audit a) ∧ (∀ u e, ev ≠ Event.doResponse u e) := by
  unfold relayDispatch at hok ⊢
  split at hok
  · simp at hok
  · rename_i ad hget
    have hb := getRequestBody_events env meta tr ad
    generalize getRequestBody env meta tr ad = gb at hok hb ⊢
    obtain ⟨evBody, body⟩ := gb
    simp only at hok hb ⊢
    split at hok
    · simp at hok
    · rename_i requestBody
      split at hok
      · simp at hok
      · rename_i resp hreq
        split at hok
        · simp at hok
        · rename_i herr
          simp only at hok
          obtain ⟨u, hu⟩ := relayResponse_success env meta cs tr ad resp pricing q mr gr spr
            hmode hok
          refine ⟨[Event.getAdaptor meta.APIType true, Event.adaptorInit] ++ evBody ++
            [Event.doRequest requestBody (.ok resp)] ++ [Event.isErrorHappened false], u, ?_, ?_⟩
          · simp only [herr, hu]
            simp
          · intro ev hev
            simp only [List.mem_append, List.mem_cons, List.mem_singleton, List.not_mem_nil,
              or_false] at hev
            rcases hev with (((h | h) | h) | h) | h
            · subst h; simp
            · subst h; simp
            · rw [hb ev h]; simp
            · subst h; simp
            · subst h; simp

/-- C5, as stated, fails: in the scenario (usage total 40, model ratio 2, group ratio 1) the
settlement amount is 80, while the assistant record written has total_tokens 40 and
cost 40. -/
theorem SaveAssistantMessage_scenario_cost_not_charge :
    runSuccess.auditsOf ChatRoleAssistant = [scenarioAssistantTurn] ∧
    runSuccess.settles.map (fun s => (s.usage, s.modelRatio, s.groupRatio)) =
      [(some ⟨10, 30, 40⟩, 2, 1)] ∧
    settlementAmount ⟨10, 30, 40⟩ 2 1 = 80 ∧
    (scenarioAssistantTurn.run ⟨[], none⟩ 1700000002).rows.map
      (fun r => (r.Role, r.Status, r.TotalTokens, r.Cost)) =
      [(ChatRoleAssistant, ChatRecordStatusSuccess, 40, 40)] ∧
    (scenarioAssistantTurn.run ⟨[], none⟩ 1700000002).rows.map
      (fun r => decide ((r.Cost : ℚ) = settlementAmount ⟨10, 30, 40⟩ 2 1)) = [false] := by
  refine ⟨by decide, rfl, ?_, by decide, ?_⟩
  · norm_num [settlementAmount]
  · have hrole : ¬ ("assistant" = "user" ∨ "assistant" = "system") := by decide
    norm_num [settlementAmount, scenarioAssistantTurn, AuditCall.run, ChatRoleUser,
      ChatRoleSystem, ChatRoleAssistant, ChatRecordService.SaveAssistantMessage,
      ChatRecordService.assistantRecord, ChatRecord.Insert, ChatRecord.zero, DB.nextId, hrole]

/-- The record the goroutine of an assistant audit turn writes into a store that executes
its statements. -/
theorem AuditCall.run_assistant (a : AuditCall) (db : DB) (now : Int)
    (hrole : a.role = ChatRoleAssistant) (hdb : db.fault = none) :
    (a.run db now).rows = db.rows ++
      [{ a.service.assistantRecord now a.content a.promptTokens a.completionTokens
          a.totalTokens a.status a.errorMsg with
          CreatedTime := now, UpdatedTime := now, Id := db.nextId }] := by
  have h1 : ¬ (a.role = ChatRoleUser ∨ a.role = ChatRoleSystem) := by
    rw [hrole]; decide
  unfold AuditCall.run
  rw [if_neg h1, if_pos hrole]
  exact ChatRecord.Insert_fresh _ db now rfl hdb

/-- C5, amended.  In a chat-completions run that returns nil, DoResponse reported a usage,
exactly one assistant audit turn is issued, with status success and the reported total; the
record SaveAssistantMessage writes for it has status success, total_tokens equal to the
reported total, and cost equal to the reported total (one unit of quota per token, whatever
the pricing ratios are). -/
theorem RelayTextHelper_success_assistant_turn (env : Env) (meta : Meta)
    (hmode : meta.Mode = env.ChatCompletions)
    (hok : (RelayTextHelper env meta).result = .returned none) :
    ∃ u a, (RelayTextHelper env meta).response = some (some u, none) ∧
      (RelayTextHelper env meta).auditsOf ChatRoleAssistant = [a] ∧
      a.status = ChatRecordStatusSuccess ∧ a.totalTokens = u.TotalTokens ∧
      ∀ (db : DB) (now : Int), db.fault = none →
        ∃ r, (a.run db now).rows = db.rows ++ [r] ∧ r.Role = ChatRoleAssistant ∧
          r.Status = ChatRecordStatusSuccess ∧ r.TotalTokens = u.TotalTokens ∧
          r.Cost = u.TotalTokens := by
  rcases RelayTextHelper_cases env meta with
    ⟨err, hrun⟩ | ⟨pre, p, r, e1, hpre, hrun⟩ |
    ⟨pre, p, r, q, meta1, cs, tr, mr, gr, spr, hpre, hm1, hrun⟩
  · rw [hrun] at hok
    simp at hok
  · rw [hrun] at hok
    simp at hok
  · rw [hrun] at hok ⊢
    simp only at hok
    obtain ⟨pre2, u, hev, hpre2⟩ := relayDispatch_success env meta1 cs tr r q mr gr spr
      (hm1.trans hmode) hok
    rw [hev]
    refine ⟨u, ⟨cs, "[响应已发送]", ChatRoleAssistant, u.PromptTokens, u.CompletionTokens,
      u.TotalTokens, ChatRecordStatusSuccess, ""⟩, ?_, ?_, rfl, rfl, ?_⟩
    · have h1 : pre.findSome? (fun e => match e with
          | .doResponse u e => some (u, e) | _ => none) = none := by
        rw [List.findSome?_eq_none_iff]
        intro ev hev
        obtain ⟨a, rfl, _⟩ := hpre ev hev
        rfl
      have h2 : pre2.findSome? (fun e => match e with
          | .doResponse u e => some (u, e) | _ => none) = none := by
        rw [List.findSome?_eq_none_iff]
        intro ev hev
        have hne := (hpre2 ev hev).2
        cases ev with
        | doResponse u1 e1 => exact absurd rfl (hne u1 e1)
        | _ => rfl
      simp [Outcome.response, List.findSome?_append, h1, h2]
    · have h1 : (pre.filterMap (fun e => match e with
          | .audit a => some a | _ => none)).filter
            (fun a => decide (a.role = ChatRoleAssistant)) = [] := by
        rw [List.filter_eq_nil_iff]
        intro a ha
        rw [List.mem_filterMap] at ha
        obtain ⟨ev, hev, hmatch⟩ := ha
        obtain ⟨a1, rfl, hrole⟩ := hpre ev hev
        simp only [Option.some.injEq] at hmatch
        subst hmatch
        rcases hrole with hr | hr <;> rw [hr] <;> decide
      have h2 : pre2.filterMap (fun e => match e with
          | .audit a => some a | _ => none) = [] := by
        rw [List.filterMap_eq_nil_iff]
        intro ev hev
        have hne := (hpre2 ev hev).1
        cases ev with
        | audit a1 => exact absurd rfl (hne a1)
        | _ => rfl
      simp [Outcome.auditsOf, Outcome.audits, List.filterMap_append, List.filter_append,
        h1, h2]
    · intro db now hdb
      refine ⟨_, AuditCall.run_assistant _ db now rfl hdb, rfl, rfl, rfl, rfl⟩

/-- The scenario of the specification is a successful chat-completions run, and C5 as amended
gives its assistant record: total_tokens 40 and cost 40. -/
theorem RelayTextHelper_success_assistant_turn_witness :
    scenarioMeta.Mode = 1 ∧ runSuccess.result = .returned none ∧
    ∃ u a, runSuccess.response = some (some u, none) ∧
      runSuccess.auditsOf ChatRoleAssistant = [a] ∧
      a.status = ChatRecordStatusSuccess ∧ a.totalTokens = u.TotalTokens ∧
      ∀ (db : DB) (now : Int), db.fault = none →
        ∃ r, (a.run db now).rows = db.rows ++ [r] ∧ r.Role = ChatRoleAssistant ∧
          r.Status = ChatRecordStatusSuccess ∧ r.TotalTokens = u.TotalTokens ∧
          r.Cost = u.TotalTokens :=
  ⟨rfl, by decide, RelayTextHelper_success_assistant_turn _ scenarioMeta rfl (by decide)⟩

/-! ### The read and delete handlers -/

/-- C7, as stated, fails: user 7 deleting record 2, which exists and belongs to user 9, is
answered with the success response; the store is left as it was. -/
theorem DeleteChatRecord_foreign_record_not_rejected :
    sampleRow 2 9 101 "c1" ∈ sampleStore.rows ∧
    (DeleteChatRecord sampleStore 7 "2").2 = ⟨StatusOK, true, "删除成功", .absent⟩ ∧
    (DeleteChatRecord sampleStore 7 "2").2.success = true ∧
    (DeleteChatRecord sampleStore 7 "2").1 = sampleStore := by
  decide

/-- C7, amended.  DeleteChatRecord called with a numeric id leaves every existing record
whose UserId differs from the caller in the store, the record of that id among them (every
row that is not a row of the caller with that id is kept); the request is not rejected: when
the store executes the statement the answer is the success response. -/
theorem DeleteChatRecord_foreign_record (db : DB) (caller : Int) (id : String) (n : Int)
    (r : ChatRecord) (hid : Atoi id = (n, none)) (hr : r ∈ db.rows)
    (hown : r.UserId ≠ caller) :
    r ∈ (DeleteChatRecord db caller id).1.rows ∧
    (∀ x ∈ db.rows, ¬ (x.Id = n ∧ x.UserId = caller) → x ∈ (DeleteChatRecord db caller id).1.rows) ∧
    (db.fault = none →
      (DeleteChatRecord db caller id).2 = ⟨StatusOK, true, "删除成功", .absent⟩) := by
  have hkeep : ∀ x ∈ db.rows, ¬ (x.Id = n ∧ x.UserId = caller) →
      x ∈ (DeleteChatRecord db caller id).1.rows := by
    intro x hx hnot
    unfold DeleteChatRecord DeleteChatRecordById
    rw [hid]
    cases hf : db.fault with
    | some e => simpa using hx
    | none =>
      simp only [List.mem_filter]
      exact ⟨hx, decide_eq_true hnot⟩
  refine ⟨hkeep r hr (fun h => hown h.2), hkeep, ?_⟩
  intro hf
  unfold DeleteChatRecord DeleteChatRecordById
  rw [hid]
  simp [hf]

/-- The sample store: user 7 deletes record 2 of user 9. -/
theorem DeleteChatRecord_foreign_record_witness :
    (Atoi "2" = (2, none) ∧ sampleRow 2 9 101 "c1" ∈ sampleStore.rows ∧
      (sampleRow 2 9 101 "c1").UserId ≠ 7) ∧
    (sampleRow 2 9 101 "c1" ∈ (DeleteChatRecord sampleStore 7 "2").1.rows ∧
    (∀ x ∈ sampleStore.rows, ¬ (x.Id = 2 ∧ x.UserId = 7) →
      x ∈ (DeleteChatRecord sampleStore 7 "2").1.rows) ∧
    (sampleStore.fault = none →
      (DeleteChatRecord sampleStore 7 "2").2 = ⟨StatusOK, true, "删除成功", .absent⟩)) :=
  ⟨by decide, DeleteChatRecord_foreign_record sampleStore 7 "2" 2 (sampleRow 2 9 101 "c1")
    (by decide) (by decide) (by decide)⟩

/-- In a table whose ids are unique, the rows with the id of a given row are that row. -/
theorem filter_id_of_nodup (rows : List ChatRecord) (r : ChatRecord)
    (hnodup : (rows.map (fun x => x.Id)).Nodup) (hr : r ∈ rows) :
    rows.filter (fun x => x.Id = r.Id) = [r] := by
  induction rows with
  | nil => simp at hr
  | cons y ys ih =>
    simp only [List.map_cons, List.nodup_cons, List.mem_map, not_exists, not_and] at hnodup
    rcases List.mem_cons.mp hr with rfl | hmem
    · have hnone : ys.filter (fun x => decide (x.Id = r.Id)) = [] := by
        rw [List.filter_eq_nil_iff]
        intro a ha
        simpa using hnodup.1 a ha
      simp [List.filter_cons, hnone]
    · have hne : ¬ y.Id = r.Id := fun h => hnodup.1 r hmem h.symm
      simp [List.filter_cons, hne, ih hnodup.2 hmem]

/-- C8.  For a store that executes its statements and whose ids are unique (Id is the primary
key), and a numeric id, the handler GetChatRecordById answers 404 when no record has that
id, 403 when the record with that id belongs to another user, and 200 with that record as
data when it belongs to the caller; it answers 200 exactly in that last case. -/
theorem GetChatRecordById_responses (db : DB) (caller : Int) (id : String) (n : Int)
    (hid : Atoi id = (n, none)) (hdb : db.fault = none)
    (hkey : (db.rows.map (fun x => x.Id)).Nodup) :
    ((∀ r ∈ db.rows, r.Id ≠ n) →
      GetChatRecordByIdHandler db caller id = ⟨StatusNotFound, false, "聊天记录不存在", .absent⟩) ∧
    (∀ r ∈ db.rows, r.Id = n → r.UserId ≠ caller →
      GetChatRecordByIdHandler db caller id = ⟨StatusForbidden, false, "无权访问此记录", .absent⟩) ∧
    (∀ r ∈ db.rows, r.Id = n → r.UserId = caller →
      GetChatRecordByIdHandler db caller id = ⟨StatusOK, true, "", .record r⟩) ∧
    ((GetChatRecordByIdHandler db caller id).status = StatusOK ↔
      ∃ r ∈ db.rows, r.Id = n ∧ r.UserId = caller) ∧
    ((GetChatRecordByIdHandler db caller id).success = true ↔
      ∃ r ∈ db.rows, r.Id = n ∧ r.UserId = caller) := by
  have hnone : (∀ r ∈ db.rows, r.Id ≠ n) →
      GetChatRecordByIdHandler db caller id =
        ⟨StatusNotFound, false, "聊天记录不存在", .absent⟩ := by
    intro h
    have hf : db.rows.filter (fun x => decide (x.Id = n)) = [] := by
      rw [List.filter_eq_nil_iff]
      intro a ha
      simpa using h a ha
    simp [GetChatRecordByIdHandler, GetChatRecordById, hid, hdb, hf]
  have hsome : ∀ r ∈ db.rows, r.Id = n →
      GetChatRecordByIdHandler db caller id =
        if r.UserId ≠ caller then ⟨StatusForbidden, false, "无权访问此记录", .absent⟩
        else ⟨StatusOK, true, "", .record r⟩ := by
    intro r hr hrn
    have hf := filter_id_of_nodup db.rows r hkey hr
    rw [hrn] at hf
    simp [GetChatRecordByIdHandler, GetChatRecordById, hid, hdb, hf]
  refine ⟨hnone, ?_, ?_, ?_, ?_⟩
  · intro r hr hrn hown
    rw [hsome r hr hrn, if_pos hown]
  · intro r hr hrn hown
    rw [hsome r hr hrn, if_neg (not_not.mpr hown)]
  · constructor
    · intro hst
      by_cases hex : ∃ r ∈ db.rows, r.Id = n
      · obtain ⟨r, hr, hrn⟩ := hex
        refine ⟨r, hr, hrn, ?_⟩
        by_contra hown
        rw [hsome r hr hrn, if_pos hown] at hst
        exact absurd hst (by decide)
      · rw [hnone (fun r hr hrn => hex ⟨r, hr, hrn⟩)] at hst
        exact absurd hst (by decide)
    · rintro ⟨r, hr, hrn, hown⟩
      rw [hsome r hr hrn, if_neg (not_not.mpr hown)]
  · constructor
    · intro hst
      by_cases hex : ∃ r ∈ db.rows, r.Id = n
      · obtain ⟨r, hr, hrn⟩ := hex
        refine ⟨r, hr, hrn, ?_⟩
        by_contra hown
        rw [hsome r hr hrn, if_pos hown] at hst
        exact absurd hst (by decide)
      · rw [hnone (fun r hr hrn => hex ⟨r, hr, hrn⟩)] at hst
        exact absurd hst (by decide)
    · rintro ⟨r, hr, hrn, hown⟩
      rw [hsome r hr hrn, if_neg (not_not.mpr hown)]

/-- The sample store: record 2 of user 9 is forbidden to user 7, record 3 is returned to
user 7, and no record has id 8. -/
theorem GetChatRecordById_responses_witness :
    (Atoi "2" = (2, none) ∧ sampleStore.fault = none ∧
      (sampleStore.rows.map (fun x => x.Id)).Nodup) ∧
    GetChatRecordByIdHandler sampleStore 7 "2" =
      ⟨StatusForbidden, false, "无权访问此记录", .absent⟩ :=
  ⟨by decide, (GetChatRecordById_responses sampleStore 7 "2" 2 (by decide) (by decide)
    (by decide)).2.1 (sampleRow 2 9 101 "c1") (by decide) (by decide) (by decide)⟩

/-- The rows orderByCreatedTimeAsc returns are in ascending created_time order. -/
theorem sorted_orderByCreatedTimeAsc (rows : List ChatRecord) :
    (orderByCreatedTimeAsc rows).Sorted (fun a b => a.CreatedTime ≤ b.CreatedTime) := by
  haveI : IsTotal ChatRecord (fun a b => a.CreatedTime ≤ b.CreatedTime) :=
    ⟨fun a b => le_total a.CreatedTime b.CreatedTime⟩
  haveI : IsTrans ChatRecord (fun a b => a.CreatedTime ≤ b.CreatedTime) :=
    ⟨fun _ _ _ hab hbc => le_trans hab hbc⟩
  exact List.sorted_insertionSort _ rows

/-- The rows limitOffset returns are rows it was given. -/
theorem mem_of_mem_limitOffset (num startIdx : Int) (rows : List ChatRecord) (r : ChatRecord)
    (h : r ∈ limitOffset num startIdx rows) : r ∈ rows := by
  unfold limitOffset at h
  simp only at h
  have hdrop : ∀ x, x ∈ (if startIdx > 0 then rows.drop startIdx.toNat else rows) → x ∈ rows := by
    intro x hx
    split at hx
    · exact List.mem_of_mem_drop hx
    · exact hx
  split at h
  · exact hdrop r (List.mem_of_mem_take h)
  · exact hdrop r h

/-- C9.  Every record in a response of GetChatRecords, GetConversationRecords and
SearchChatRecords (whatever the keyword and whatever the LIKE operator matches) has UserId
equal to the caller; and for a store that executes its statements GetConversationRecords
answers with the records of the conversation owned by the caller, in ascending created_time
order. -/
theorem handlers_return_caller_records (like : String → String → Bool) (db : DB)
    (caller : Int) (start_idx num conversation_id keyword : String) :
    (∀ r ∈ (GetChatRecords db caller start_idx num conversation_id).data.toList,
      r.UserId = caller) ∧
    (∀ r ∈ (GetConversationRecords db caller conversation_id).data.toList,
      r.UserId = caller) ∧
    (∀ r ∈ (SearchChatRecordsHandler like db caller keyword start_idx num).data.toList,
      r.UserId = caller) ∧
    (db.fault = none → conversation_id ≠ "" →
      ∃ rs, GetConversationRecords db caller conversation_id = ⟨StatusOK, true, "", .records rs⟩ ∧
        rs.Perm (db.rows.filter
          (fun r => r.ConversationId = conversation_id ∧ r.UserId = caller)) ∧
        rs.Sorted (fun a b => a.CreatedTime ≤ b.CreatedTime)) := by
  refine ⟨?_, ?_, ?_, ?_⟩
  · intro r hr
    unfold GetChatRecords GetChatRecordsByUserId at hr
    cases hf : db.fault with
    | some e => simp [hf, Data.toList] at hr
    | none =>
      simp only [hf, Data.toList] at hr
      have h1 := mem_of_mem_limitOffset _ _ _ _ hr
      rw [orderByCreatedTimeDesc, List.mem_insertionSort] at h1
      split at h1
      · have h2 := List.mem_of_mem_filter h1
        simpa using (List.mem_filter.mp h2).2
      · simpa using (List.mem_filter.mp h1).2
  · intro r hr
    unfold GetConversationRecords GetChatRecordsByConversationId at hr
    simp only at hr
    split at hr
    · simp [Data.toList] at hr
    · cases hf : db.fault with
      | some e => simp [hf, Data.toList] at hr
      | none =>
        simp only [hf, Data.toList] at hr
        simpa using (List.mem_filter.mp hr).2
  · intro r hr
    unfold SearchChatRecordsHandler SearchChatRecords at hr
    cases hf : db.fault with
    | some e => simp [hf, Data.toList] at hr
    | none =>
      simp only [hf, Data.toList] at hr
      have h1 := mem_of_mem_limitOffset _ _ _ _ hr
      rw [orderByCreatedTimeDesc, List.mem_insertionSort] at h1
      split at h1
      · have h2 := List.mem_of_mem_filter h1
        simpa using (List.mem_filter.mp h2).2
      · simpa using (List.mem_filter.mp h1).2
  · intro hf hconv
    refine ⟨(orderByCreatedTimeAsc (db.rows.filter
      (fun r => r.ConversationId = conversation_id))).filter (fun r => r.UserId = caller),
      ?_, ?_, ?_⟩
    · simp [GetConversationRecords, GetChatRecordsByConversationId, hf, hconv]
    · have hp := (List.perm_insertionSort (fun a b : ChatRecord => a.CreatedTime ≤ b.CreatedTime)
        (db.rows.filter (fun r => r.ConversationId = conversation_id))).filter
        (fun r => decide (r.UserId = caller))
      rw [List.filter_filter] at hp
      unfold orderByCreatedTimeAsc
      refine hp.trans (List.Perm.of_eq ?_)
      congr 1
      funext x
      simp [Bool.and_comm]
    · exact (sorted_orderByCreatedTimeAsc _).filter _

/-- The sample store: the conversation c1 holds a record of user 9, and user 7 is answered
with the two records of c1 that are their own. -/
theorem handlers_return_caller_records_witness :
    (sampleStore.fault = none ∧ "c1" ≠ "") ∧
    ∃ rs, GetConversationRecords sampleStore 7 "c1" = ⟨StatusOK, true, "", .records rs⟩ ∧
      rs.Perm (sampleStore.rows.filter (fun r => r.ConversationId = "c1" ∧ r.UserId = 7)) ∧
      rs.Sorted (fun a b => a.CreatedTime ≤ b.CreatedTime) :=
  ⟨by decide, (handlers_return_caller_records (fun _ _ => true) sampleStore 7 "" "" "c1"
    "hello").2.2.2 (by decide) (by decide)⟩

/-- Insert leaves the rows of the store in place and appends at most one row, which carries
the ConversationId of the record inserted. -/
theorem ChatRecord.Insert_rows (cr : ChatRecord) (db : DB) (now : Int) :
    ∃ w, (cr.Insert db now).1.rows = db.rows ++ w ∧
      ∀ r ∈ w, r.ConversationId = cr.ConversationId := by
  unfold ChatRecord.Insert
  simp only
  cases db.fault with
  | some e => exact ⟨[], by simp, by simp⟩
  | none =>
    simp only
    generalize hcr : (if cr.Id = 0 then
      ({ cr with CreatedTime := now, UpdatedTime := now, Id := db.nextId } : ChatRecord)
      else { cr with CreatedTime := now, UpdatedTime := now }) = stamped
    have hconv : stamped.ConversationId = cr.ConversationId := by
      rw [← hcr]
      split <;> rfl
    by_cases hany : (db.rows.any fun r => decide (r.Id = stamped.Id)) = true
    · rw [if_pos hany]
      exact ⟨[], by simp, by simp⟩
    · rw [if_neg hany]
      refine ⟨[stamped], rfl, ?_⟩
      intro r hr
      rw [List.mem_singleton] at hr
      rw [hr, hconv]

/-- A Save method leaves the rows of the store in place and appends at most one row, which
carries the conversationId of the service. -/
theorem SaveCall.run_rows (c : SaveCall) (crs : ChatRecordService) (db : DB) (now : Int) :
    ∃ w, (c.run crs db now).1.rows = db.rows ++ w ∧
      ∀ r ∈ w, r.ConversationId = crs.conversationId := by
  cases c with
  | SaveUserMessage content role =>
    simp only [SaveCall.run, ChatRecordService.SaveUserMessage]
    split
    · exact ⟨[], by simp, by simp⟩
    · exact ChatRecord.Insert_rows (crs.userRecord content role) db now
  | SaveSystemMessage content =>
    exact ChatRecord.Insert_rows (crs.systemRecord content) db now
  | SaveDeveloperMessage content =>
    exact ChatRecord.Insert_rows (crs.developerRecord content) db now
  | SaveAssistantMessage content p c t st e =>
    exact ChatRecord.Insert_rows (crs.assistantRecord now content p c t st e) db now

/-- A sequence of Save calls leaves the service as it is, keeps the rows of the store and
appends rows that all carry the conversationId of the service. -/
theorem runCalls_saveCalls (saves : List (SaveCall × Int)) (st : ServiceState) :
    (runCalls (saveCalls saves) st).service = st.service ∧
    ∃ w, (runCalls (saveCalls saves) st).db.rows = st.db.rows ++ w ∧
      ∀ r ∈ w, r.ConversationId = st.service.conversationId := by
  induction saves generalizing st with
  | nil => exact ⟨rfl, [], by simp [runCalls, saveCalls], by simp⟩
  | cons p rest ih =>
    obtain ⟨hs, w2, hw2, hc2⟩ := ih ((ServiceCall.save p.1 p.2).step st)
    obtain ⟨w1, hw1, hc1⟩ := SaveCall.run_rows p.1 st.service st.db p.2
    have hstep : runCalls (saveCalls (p :: rest)) st =
        runCalls (saveCalls rest) ((ServiceCall.save p.1 p.2).step st) := by
      simp [runCalls, saveCalls]
    rw [hstep]
    refine ⟨hs, w1 ++ w2, ?_, ?_⟩
    · rw [hw2]
      simp only [ServiceCall.step]
      rw [hw1, List.append_assoc]
    · intro r hr
      rcases List.mem_append.mp hr with h | h
      · exact hc1 r h
      · exact hc2 r h

/-- C12.  For every service, store and sequence of Save calls: the records the sequence
writes all carry the ConversationId that GetConversationId returns; a Save call, and a
sequence of Save calls, leave GetConversationId as it was; after SetConversationId(x),
GetConversationId returns x, and in a sequence of Save calls, SetConversationId(x) and
further Save calls, the records written before it carry the old id, those written after it
carry x, and GetConversationId returns x at the end. -/
theorem ChatRecordService_conversation_id (crs : ChatRecordService) (db : DB)
    (before after : List (SaveCall × Int)) (x : String) (c : SaveCall) (now : Int) :
    (∃ w, (runCalls (saveCalls before) ⟨crs, db⟩).db.rows = db.rows ++ w ∧
      ∀ r ∈ w, r.ConversationId = crs.GetConversationId) ∧
    ((ServiceCall.save c now).step ⟨crs, db⟩).service.GetConversationId =
      crs.GetConversationId ∧
    (runCalls (saveCalls before) ⟨crs, db⟩).service.GetConversationId =
      crs.GetConversationId ∧
    (crs.SetConversationId x).GetConversationId = x ∧
    (∃ w1 w2,
      (runCalls (saveCalls before ++ ServiceCall.SetConversationId x :: saveCalls after)
        ⟨crs, db⟩).db.rows = db.rows ++ w1 ++ w2 ∧
      (∀ r ∈ w1, r.ConversationId = crs.GetConversationId) ∧
      (∀ r ∈ w2, r.ConversationId = x)) ∧
    (runCalls (saveCalls before ++ ServiceCall.SetConversationId x :: saveCalls after)
      ⟨crs, db⟩).service.GetConversationId = x := by
  obtain ⟨hs1, w1, hw1, hc1⟩ := runCalls_saveCalls before ⟨crs, db⟩
  have hsplit : runCalls (saveCalls before ++ ServiceCall.SetConversationId x :: saveCalls after)
      ⟨crs, db⟩ = runCalls (saveCalls after)
        ((ServiceCall.SetConversationId x).step (runCalls (saveCalls before) ⟨crs, db⟩)) := by
    simp [runCalls, List.foldl_append]
  obtain ⟨hs2, w2, hw2, hc2⟩ := runCalls_saveCalls after
    ((ServiceCall.SetConversationId x).step (runCalls (saveCalls before) ⟨crs, db⟩))
  refine ⟨⟨w1, hw1, hc1⟩, rfl, ?_, rfl, ⟨w1, w2, ?_, hc1, ?_⟩, ?_⟩
  · rw [hs1]
  · rw [hsplit, hw2]
    simp only [ServiceCall.step]
    rw [hw1]
  · intro r hr
    rw [hc2 r hr]
    rfl
  · rw [hsplit, hs2]
    rfl

/-! ### The status of the errors of the relay orchestrator -/

/-- The three early returns of relayDispatch: no adaptor, a failed conversion, a failed
DoRequest. -/
theorem relayDispatch_failures (env : Env) (meta : Meta) (cs : ChatRecordService)
    (tr : GeneralOpenAIRequest) (pricing : ℚ) (q : Int) (mr gr : ℚ) (spr : Bool) :
    (env.GetAdaptor meta.APIType = none →
      (relayDispatch env meta cs tr pricing q mr gr spr).result = .returned (some
        (ErrorWrapper ("invalid api type: " ++ toString meta.APIType) "invalid_api_type"
          StatusBadRequest))) ∧
    (∀ ad, env.GetAdaptor meta.APIType = some ad →
      (∀ err, (getRequestBody env meta tr ad).2 = .error err →
        (relayDispatch env meta cs tr pricing q mr gr spr).result = .returned (some
          (ErrorWrapper err "convert_request_failed" StatusInternalServerError))) ∧
      (∀ body err, (getRequestBody env meta tr ad).2 = .ok body →
        ad.DoRequest meta body = .error err →
        (relayDispatch env meta cs tr pricing q mr gr spr).result = .returned (some
          (ErrorWrapper err "do_request_failed" StatusInternalServerError)))) := by
  refine ⟨?_, ?_⟩
  · intro hget
    unfold relayDispatch
    rw [hget]
  · intro ad hget
    refine ⟨?_, ?_⟩
    · intro err hbody
      unfold relayDispatch
      rw [hget]
      simp only
      generalize getRequestBody env meta tr ad = gb at hbody
      obtain ⟨evBody, body⟩ := gb
      simp only at hbody
      subst hbody
      rfl
    · intro reqBody err hbody hreq
      unfold relayDispatch
      rw [hget]
      simp only
      generalize getRequestBody env meta tr ad = gb at hbody
      obtain ⟨evBody, body⟩ := gb
      simp only at hbody
      subst hbody
      simp only [hreq]

/-- A run whose request passes validation: the audit turns of the request, the reservation,
and, when the reservation succeeds, relayDispatch on the request and the meta at dispatch. -/
theorem RelayTextHelper_of_valid (env : Env) (meta : Meta) (tr : GeneralOpenAIRequest)
    (hvalid : env.getAndValidateTextRequest meta.Mode = .ok tr) :
    ∃ p r,
      (∃ e, RelayTextHelper env meta =
        ⟨requestAudits env meta (requestService env meta tr) (mappedRequest env meta tr) ++
          [Event.reserve p r (.error e)], .returned (some e)⟩) ∨
      (∃ q mr gr spr, RelayTextHelper env meta =
        ⟨requestAudits env meta (requestService env meta tr) (mappedRequest env meta tr) ++
          [Event.reserve p r (.ok q)] ++
          (relayDispatch env (dispatchMeta env meta tr) (requestService env meta tr)
            (dispatchRequest env meta tr) r q mr gr spr).events,
         (relayDispatch env (dispatchMeta env meta tr) (requestService env meta tr)
            (dispatchRequest env meta tr) r q mr gr spr).result⟩) := by
  unfold RelayTextHelper
  rw [hvalid]
  simp only
  split
  · exact ⟨_, _, Or.inl ⟨_, rfl⟩⟩
  · exact ⟨_, _, Or.inr ⟨_, _, _, _, rfl⟩⟩

/-- The audit turns of the request hold no reservation. -/
theorem requestAudits_reservation (env : Env) (meta : Meta) (cs : ChatRecordService)
    (tr : GeneralOpenAIRequest) :
    (requestAudits env meta cs tr).findSome? (fun e => match e with
      | .reserve _ _ (.ok q) => some q | _ => none) = none := by
  rw [List.findSome?_eq_none_iff]
  intro ev hev
  obtain ⟨a, rfl, _⟩ := requestAudits_roles env meta cs tr ev hev
  rfl

/-- C13, as stated, fails: in the scenario with no adaptor registered for the api type, the
error returned has status 400, not 500. -/
theorem RelayTextHelper_no_adaptor_status_400 :
    runNoAdaptor.reservation = some 20 ∧
    runNoAdaptor.result = .returned (some (ErrorWrapper "invalid api type: 0"
      "invalid_api_type" StatusBadRequest)) ∧
    runNoAdaptor.statusCode = some 400 ∧
    runNoAdaptor.statusCode ≠ some 500 := by
  decide

/-- C13, amended.  The error RelayTextHelper returns carries status 400 when
getAndValidateTextRequest fails and, after a successful reservation, when the adaptor
registry returns nil for the api type; it carries status 500 when the conversion of the
request (getRequestBody) fails and when DoRequest fails. -/
theorem RelayTextHelper_failure_status (env : Env) (meta : Meta) :
    (∀ err, env.getAndValidateTextRequest meta.Mode = .error err →
      (RelayTextHelper env meta).result = .returned (some
        (ErrorWrapper err "invalid_text_request" StatusBadRequest)) ∧
      (RelayTextHelper env meta).statusCode = some 400) ∧
    (∀ tr q, env.getAndValidateTextRequest meta.Mode = .ok tr →
      (RelayTextHelper env meta).reservation = some q →
      (env.GetAdaptor meta.APIType = none →
        (RelayTextHelper env meta).result = .returned (some
          (ErrorWrapper ("invalid api type: " ++ toString meta.APIType) "invalid_api_type"
            StatusBadRequest)) ∧
        (RelayTextHelper env meta).statusCode = some 400) ∧
      (∀ ad, env.GetAdaptor meta.APIType = some ad →
        (∀ err, (getRequestBody env (dispatchMeta env meta tr) (dispatchRequest env meta tr)
            ad).2 = .error err →
          (RelayTextHelper env meta).result = .returned (some
            (ErrorWrapper err "convert_request_failed" StatusInternalServerError)) ∧
          (RelayTextHelper env meta).statusCode = some 500) ∧
        (∀ body err, (getRequestBody env (dispatchMeta env meta tr)
            (dispatchRequest env meta tr) ad).2 = .ok body →
          ad.DoRequest (dispatchMeta env meta tr) body = .error err →
          (RelayTextHelper env meta).result = .returned (some
            (ErrorWrapper err "do_request_failed" StatusInternalServerError)) ∧
          (RelayTextHelper env meta).statusCode = some 500))) := by
  have hstatus : ∀ (o : Outcome) (err code : String) (st : Int),
      o.result = .returned (some (ErrorWrapper err code st)) → o.statusCode = some st := by
    intro o err code st h
    simp [Outcome.statusCode, h, ErrorWrapper]
  refine ⟨?_, ?_⟩
  · intro err hvalid
    have hres : (RelayTextHelper env meta).result = .returned (some
        (ErrorWrapper err "invalid_text_request" StatusBadRequest)) := by
      unfold RelayTextHelper
      rw [hvalid]
    exact ⟨hres, hstatus _ _ _ _ hres⟩
  · intro tr q hvalid hreserved
    obtain ⟨p, r, ⟨e, hrun⟩ | ⟨q1, mr, gr, spr, hrun⟩⟩ := RelayTextHelper_of_valid env meta tr hvalid
    · exfalso
      rw [hrun] at hreserved
      simp [Outcome.reservation, List.findSome?_append, requestAudits_reservation] at hreserved
    · have hfail := relayDispatch_failures env (dispatchMeta env meta tr)
        (requestService env meta tr) (dispatchRequest env meta tr) r q1 mr gr spr
      have hres : (RelayTextHelper env meta).result =
          (relayDispatch env (dispatchMeta env meta tr) (requestService env meta tr)
            (dispatchRequest env meta tr) r q1 mr gr spr).result := by
        rw [hrun]
      have hapi : (dispatchMeta env meta tr).APIType = meta.APIType := rfl
      rw [hapi] at hfail
      refine ⟨?_, ?_⟩
      · intro hget
        have h := hres.trans (hfail.1 hget)
        exact ⟨h, hstatus _ _ _ _ h⟩
      · intro ad hget
        refine ⟨?_, ?_⟩
        · intro err hbody
          have h := hres.trans ((hfail.2 ad hget).1 err hbody)
          exact ⟨h, hstatus _ _ _ _ h⟩
        · intro body err hbody hreq
          have h := hres.trans ((hfail.2 ad hget).2 body err hbody hreq)
          exact ⟨h, hstatus _ _ _ _ h⟩

/-- The scenario with no adaptor registered: the request passes validation, 20 is reserved,
the registry returns nil, and the error returned carries status 400. -/
theorem RelayTextHelper_failure_status_witness :
    ((scenarioEnv (.ok 20) none false).getAndValidateTextRequest scenarioMeta.Mode =
        .ok scenarioRequest ∧
      runNoAdaptor.reservation = some 20 ∧
      (scenarioEnv (.ok 20) none false).GetAdaptor scenarioMeta.APIType = none) ∧
    (runNoAdaptor.result = .returned (some
        (ErrorWrapper ("invalid api type: " ++ toString scenarioMeta.APIType)
          "invalid_api_type" StatusBadRequest)) ∧
      runNoAdaptor.statusCode = some 400) :=
  ⟨⟨rfl, by decide, rfl⟩,
    ((RelayTextHelper_failure_status (scenarioEnv (.ok 20) none false) scenarioMeta).2
      scenarioRequest 20 rfl (by decide)).1 rfl⟩

/-! ### The audit turns of the request -/

/-- TrimSpace on the characters: the leading white space dropped, then the trailing. -/
theorem TrimSpace_data (s : String) :
    TrimSpace s = String.mk ((s.data.dropWhile isSpace).rdropWhile isSpace) := rfl

/-- A trailing newline does not change what TrimSpace returns. -/
theorem TrimSpace_append_newline (s : String) : TrimSpace (s ++ "\n") = TrimSpace s := by
  have hnl : isSpace '\n' = true := by decide
  have hdata : (s ++ "\n").data = s.data ++ ['\n'] := rfl
  rw [TrimSpace_data, TrimSpace_data, hdata, List.dropWhile_append]
  congr 1
  split
  · rename_i hempty
    have hnil : List.dropWhile isSpace s.data = [] := by
      simpa using hempty
    rw [hnil]
    simp [List.dropWhile, hnl]
  · exact List.rdropWhile_concat_pos _ _ _ hnl

/-- TrimSpace returns a string it leaves as it is. -/
theorem TrimSpace_idempotent (s : String) : TrimSpace (TrimSpace s) = TrimSpace s := by
  rw [TrimSpace_data (TrimSpace s), TrimSpace_data s]
  congr 1
  simp only
  have hhead : List.dropWhile isSpace ((s.data.dropWhile isSpace).rdropWhile isSpace) =
      (s.data.dropWhile isSpace).rdropWhile isSpace := by
    cases hm : s.data.dropWhile isSpace with
    | nil => simp [List.rdropWhile]
    | cons x m =>
      have hx : isSpace x = false := by
        have h := List.head_dropWhile_not isSpace s.data (by rw [hm]; simp)
        simpa [hm] using h
      obtain ⟨t, ht⟩ := List.rdropWhile_prefix isSpace (l := x :: m)
      cases hr : List.rdropWhile isSpace (x :: m) with
      | nil => rfl
      | cons y r =>
        rw [hr] at ht
        have hy : y = x := by
          simp only [List.cons_append, List.cons.injEq] at ht
          exact ht.1
        subst hy
        simp [List.dropWhile, hx]
  rw [hhead]
  exact List.rdropWhile_idempotent _ _

/-- The accumulator of String.intercalate comes first in its result. -/
theorem intercalate_go_acc (sep : String) (l : List String) (acc : String) :
    String.intercalate.go acc sep l = acc ++ String.intercalate.go "" sep l := by
  induction l generalizing acc with
  | nil => simp [String.intercalate.go]
  | cons a rest ih =>
    simp only [String.intercalate.go]
    rw [ih (acc ++ sep ++ a), ih ("" ++ sep ++ a)]
    simp [String.append_assoc]

/-- The strings joined by a separator: the first string, the separator, the other strings
joined. -/
theorem intercalate_cons_cons (sep a b : String) (rest : List String) :
    sep.intercalate (a :: b :: rest) = a ++ sep ++ sep.intercalate (b :: rest) := by
  simp only [String.intercalate, String.intercalate.go]
  rw [intercalate_go_acc sep rest (a ++ sep ++ b), intercalate_go_acc sep rest b]
  simp [String.append_assoc]

/-- The text of the builder is the strings joined by newline, followed by a newline. -/
theorem linesOf_cons (c : String) (rest : List String) :
    linesOf (c :: rest) = "\n".intercalate (c :: rest) ++ "\n" := by
  induction rest generalizing c with
  | nil => simp [linesOf, String.intercalate, String.intercalate.go]
  | cons d rest ih =>
    rw [intercalate_cons_cons, linesOf, ih d]
    simp [String.append_assoc]

/-- The builder is empty exactly when nothing was written to it. -/
theorem linesOf_size_pos (cs : List String) : (linesOf cs).utf8ByteSize > 0 ↔ cs ≠ [] := by
  cases cs with
  | nil => simp [linesOf]; rfl
  | cons c rest =>
    have h : (linesOf (c :: rest)).data = c.data ++ '\n' :: (linesOf rest).data := by
      simp [linesOf]
    have hsize : (linesOf (c :: rest)).utf8ByteSize =
        String.utf8Len (linesOf (c :: rest)).data := rfl
    rw [hsize, h]
    simp only [String.utf8Len_append, String.utf8Len_cons, gt_iff_lt, ne_eq, reduceCtorEq,
      not_false_eq_true, iff_true]
    have := Char.utf8Size_pos '\n'
    omega

/-- The loop over the messages builds the user text and the system text. -/
theorem collectContents_eq (messages : List Message) :
    collectContents messages =
      (linesOf (contentsOf ChatRoleUser messages), linesOf (contentsOf ChatRoleSystem messages)) := by
  induction messages with
  | nil => rfl
  | cons msg rest ih =>
    have hne : ChatRoleUser ≠ ChatRoleSystem := by decide
    simp only [collectContents, ih, contentsOf, List.filter_cons]
    by_cases hu : msg.Role = ChatRoleUser
    · have hs : ¬ msg.Role = ChatRoleSystem := fun h => hne (hu.symm.trans h)
      simp [hu, hs, linesOf, hne]
    · by_cases hs : msg.Role = ChatRoleSystem
      · simp [hu, hs, linesOf, hne.symm]
      · simp [hu, hs]

/-- The audit turns of role user, and of role system, among the audit turns of a
chat-completions request: one turn with the trimmed text of the role when the request has a
message of the role, none otherwise. -/
theorem requestAudits_of_role (env : Env) (meta : Meta) (cs : ChatRecordService)
    (tr : GeneralOpenAIRequest) (hmode : meta.Mode = env.ChatCompletions) (role : String)
    (hrole : role = ChatRoleUser ∨ role = ChatRoleSystem) :
    ((requestAudits env meta cs tr).filterMap (fun e => match e with
        | .audit a => some a | _ => none)).filter (fun a => a.role = role) =
      if contentsOf role tr.Messages ≠ [] then
        [⟨cs, TrimSpace (linesOf (contentsOf role tr.Messages)), role, 0, 0, 0,
          ChatRecordStatusSuccess, ""⟩]
      else [] := by
  have hus : ChatRoleUser ≠ ChatRoleSystem := by decide
  unfold requestAudits
  rw [collectContents_eq]
  by_cases hlen : tr.Messages.length > 0
  · rw [if_pos ⟨hmode, hlen⟩]
    simp only [linesOf_size_pos]
    rcases hrole with rfl | rfl
    · by_cases hu : contentsOf ChatRoleUser tr.Messages = [] <;>
        by_cases hs : contentsOf ChatRoleSystem tr.Messages = [] <;>
        simp [hu, hs, hus, hus.symm]
    · by_cases hu : contentsOf ChatRoleUser tr.Messages = [] <;>
        by_cases hs : contentsOf ChatRoleSystem tr.Messages = [] <;>
        simp [hu, hs, hus, hus.symm]
  · have hnil : tr.Messages = [] := by
      cases hm : tr.Messages with
      | nil => rfl
      | cons a l => rw [hm] at hlen; simp at hlen
    have hc : contentsOf role tr.Messages = [] := by rw [hnil]; rfl
    have hcond : ¬ (meta.Mode = env.ChatCompletions ∧ tr.Messages.length > 0) :=
      fun h => hlen h.2
    rw [if_neg hcond, hc]
    simp

/-- In a run whose request passes validation, the audit turns of role user, and of role
system, are those among the audit turns of the request. -/
theorem RelayTextHelper_auditsOf_request (env : Env) (meta : Meta) (tr : GeneralOpenAIRequest)
    (hvalid : env.getAndValidateTextRequest meta.Mode = .ok tr) (role : String)
    (hrole : role = ChatRoleUser ∨ role = ChatRoleSystem) :
    (RelayTextHelper env meta).auditsOf role =
      ((requestAudits env meta (requestService env meta tr)
        (mappedRequest env meta tr)).filterMap (fun e => match e with
          | .audit a => some a | _ => none)).filter (fun a => a.role = role) := by
  have hna : role ≠ ChatRoleAssistant := by
    rcases hrole with rfl | rfl <;> decide
  obtain ⟨p, r, ⟨e, hrun⟩ | ⟨q, mr, gr, spr, hrun⟩⟩ := RelayTextHelper_of_valid env meta tr hvalid
  · rw [hrun]
    simp [Outcome.auditsOf, Outcome.audits, List.filterMap_append, List.filter_append]
  · rw [hrun]
    have hrest : ((relayDispatch env (dispatchMeta env meta tr) (requestService env meta tr)
        (dispatchRequest env meta tr) r q mr gr spr).events.filterMap (fun e => match e with
          | .audit a => some a | _ => none)).filter (fun a => decide (a.role = role)) = [] := by
      rw [List.filter_eq_nil_iff]
      intro a ha
      rw [List.mem_filterMap] at ha
      obtain ⟨ev, hev, hmatch⟩ := ha
      have hassist := (relayDispatch_events _ _ _ _ _ _ _ _ _ ev hev).2
      cases ev with
      | audit a1 =>
        simp only [Option.some.injEq] at hmatch
        subst hmatch
        rw [hassist a1 rfl]
        simpa using hna.symm
      | _ => simp at hmatch
    simp [Outcome.auditsOf, Outcome.audits, List.filterMap_append, List.filter_append, hrest]

/-- The goroutine of an audit turn of role user or system: nothing is written for an empty
content; otherwise the record SaveUserMessage builds is appended to a store that executes
its statements. -/
theorem AuditCall.run_request_role (a : AuditCall) (db : DB) (now : Int)
    (hrole : a.role = ChatRoleUser ∨ a.role = ChatRoleSystem) :
    (a.content = "" → a.run db now = db) ∧
    (a.content ≠ "" → db.fault = none →
      (a.run db now).rows = db.rows ++
        [{ a.service.userRecord a.content a.role with
            CreatedTime := now, UpdatedTime := now, Id := db.nextId }]) := by
  unfold AuditCall.run
  rw [if_pos hrole]
  refine ⟨?_, ?_⟩
  · intro hc
    simp [ChatRecordService.SaveUserMessage, hc]
  · intro hc hdb
    simp only [ChatRecordService.SaveUserMessage, if_neg hc]
    exact ChatRecord.Insert_fresh _ db now rfl hdb

/-- A request has a message of a role exactly when the contents of that role are not
empty. -/
theorem contentsOf_ne_nil (role : String) (messages : List Message) :
    contentsOf role messages ≠ [] ↔ ∃ msg ∈ messages, msg.Role = role := by
  simp [contentsOf, List.filter_eq_nil_iff]

/-- C11, as stated, fails.  For the user messages "  hello" and "world \n" the contents
joined by newline are "  hello\nworld \n", while the user audit turn issued, and the row
stored for it, hold "hello\nworld"; for a single blank user message one user audit turn is
issued, with empty content, and no row is stored for it. -/
theorem RelayTextHelper_user_turn_trimmed :
    "\n".intercalate (contentsOf ChatRoleUser paddedRequest.Messages) = "  hello\nworld \n" ∧
    ((runRequest paddedRequest).auditsOf ChatRoleUser).map (fun a => a.content) =
      ["hello\nworld"] ∧
    ((runRequest paddedRequest).auditsOf ChatRoleUser).map
      (fun a => (a.run ⟨[], none⟩ 1700000001).rows.map (fun r => r.Content)) =
      [["hello\nworld"]] ∧
    ((runRequest blankRequest).auditsOf ChatRoleUser).map (fun a => a.content) = [""] ∧
    ((runRequest blankRequest).auditsOf ChatRoleUser).map
      (fun a => (a.run ⟨[], none⟩ 1700000001).rows) = [[]] := by
  decide

/-- C11, amended.  For a chat-completions request that passes validation and for the role
user, and likewise the role system: when the request has a message of the role, exactly one
audit turn of the role is issued, its content is the contents of all messages of the role,
in order, joined by newline, with leading and trailing white space trimmed, and the row
stored for it holds that same trimmed text, unless the trimmed text is empty, in which case
no row is stored; when the request has no message of the role, no audit turn of the role is
issued; so at most one audit turn per role is issued. -/
theorem RelayTextHelper_request_turns (env : Env) (meta : Meta) (tr : GeneralOpenAIRequest)
    (hvalid : env.getAndValidateTextRequest meta.Mode = .ok tr)
    (hmode : meta.Mode = env.ChatCompletions) (role : String)
    (hrole : role = ChatRoleUser ∨ role = ChatRoleSystem) :
    ((∃ msg ∈ tr.Messages, msg.Role = role) →
      ∃ a, (RelayTextHelper env meta).auditsOf role = [a] ∧ a.role = role ∧
        a.content = TrimSpace ("\n".intercalate (contentsOf role tr.Messages)) ∧
        ∀ (db : DB) (now : Int),
          (a.content = "" → a.run db now = db) ∧
          (a.content ≠ "" → db.fault = none →
            ∃ r, (a.run db now).rows = db.rows ++ [r] ∧ r.Role = role ∧
              r.Content = TrimSpace ("\n".intercalate (contentsOf role tr.Messages)))) ∧
    ((¬ ∃ msg ∈ tr.Messages, msg.Role = role) →
      (RelayTextHelper env meta).auditsOf role = []) ∧
    ((RelayTextHelper env meta).auditsOf role).length ≤ 1 := by
  have hmsg : (mappedRequest env meta tr).Messages = tr.Messages := rfl
  have haud := RelayTextHelper_auditsOf_request env meta tr hvalid role hrole
  rw [requestAudits_of_role env meta _ _ hmode role hrole, hmsg] at haud
  refine ⟨?_, ?_, ?_⟩
  · intro hex
    have hne := (contentsOf_ne_nil role tr.Messages).mpr hex
    rw [if_pos hne] at haud
    have htext : TrimSpace (linesOf (contentsOf role tr.Messages)) =
        TrimSpace ("\n".intercalate (contentsOf role tr.Messages)) := by
      cases hc : contentsOf role tr.Messages with
      | nil => exact absurd hc hne
      | cons c rest => rw [linesOf_cons, TrimSpace_append_newline]
    refine ⟨_, haud, rfl, htext, ?_⟩
    intro db now
    have hrun := AuditCall.run_request_role
      ⟨requestService env meta tr, TrimSpace (linesOf (contentsOf role tr.Messages)), role,
        0, 0, 0, ChatRecordStatusSuccess, ""⟩ db now hrole
    refine ⟨hrun.1, ?_⟩
    intro hc hdb
    refine ⟨_, hrun.2 hc hdb, rfl, ?_⟩
    show TrimSpace (TrimSpace (linesOf (contentsOf role tr.Messages))) = _
    rw [TrimSpace_idempotent, htext]
  · intro hex
    have hnil : ¬ contentsOf role tr.Messages ≠ [] :=
      fun h => hex ((contentsOf_ne_nil role tr.Messages).mp h)
    rw [if_neg hnil] at haud
    exact haud
  · rw [haud]
    split <;> simp

/-- The request with the padded user messages: one user turn, "hello\nworld", is issued and
stored. -/
theorem RelayTextHelper_request_turns_witness :
    (scenarioMeta.Mode = 1 ∧ ∃ msg ∈ paddedRequest.Messages, msg.Role = ChatRoleUser) ∧
    ∃ a, (runRequest paddedRequest).auditsOf ChatRoleUser = [a] ∧ a.role = ChatRoleUser ∧
      a.content = TrimSpace ("\n".intercalate (contentsOf ChatRoleUser paddedRequest.Messages)) ∧
      ∀ (db : DB) (now : Int),
        (a.content = "" → a.run db now = db) ∧
        (a.content ≠ "" → db.fault = none →
          ∃ r, (a.run db now).rows = db.rows ++ [r] ∧ r.Role = ChatRoleUser ∧
            r.Content =
              TrimSpace ("\n".intercalate (contentsOf ChatRoleUser paddedRequest.Messages))) :=
  ⟨⟨rfl, ⟨"user", "  hello"⟩, by decide, rfl⟩,
    (RelayTextHelper_request_turns _ scenarioMeta paddedRequest rfl rfl ChatRoleUser
      (Or.inl rfl)).1 ⟨⟨"user", "  hello"⟩, by decide, rfl⟩⟩

end OneApi
